import Mathlib

/-!
Shallow embedding of the deferred-action engine of this repository:
the governance block driver (x/gov/abci.go), genesis import (x/gov/genesis.go)
and the slashing epoch executor (x/slashing/keeper/epoch_exec.go).

External collaborators (key-value store, bank transfers, handler routing,
the tally engine and the staking keeper) are modelled as explicit
environment records, as the spec declares them out of scope; everything
the driver itself does is translated line by line from the Go source.
-/

/-- An opaque module event emitted by a content or message handler. -/
structure MEvent where
  data : String
deriving DecidableEq, Repr

/-- Structured events produced by the engine.  The two proposal events carry
the proposal id and (for the active queue) the outcome tag string; handler
events are re-emitted opaquely. -/
inductive Event where
  | inactiveProposal (pid : Nat)
  | activeProposal (pid : Nat) (result : String)
  | modEvent (e : MEvent)
deriving DecidableEq, Repr

/-- Proposal status values, x/gov/types. -/
inductive ProposalStatus where
  | depositPeriod
  | votingPeriod
  | passed
  | rejected
  | failed
  | dropped
deriving DecidableEq, Repr

/-- Per-option vote totals. -/
structure TallyResult where
  yes : Nat
  abstain : Nat
  no : Nat
  noWithVeto : Nat
deriving DecidableEq, Repr

/-- A V1 proposal: its payload is a content object reached through a route. -/
structure Proposal where
  proposalId : Nat
  proposalRoute : String
  status : ProposalStatus
  finalTallyResult : TallyResult
  depositEndTime : Nat
  votingEndTime : Nat
  totalDeposit : Nat
deriving DecidableEq, Repr

/-- A V2 proposal: its payload is an ordered list of messages; messages are
opaque ids resolved to handlers by the router environment. -/
structure ProposalV2 where
  proposalId : Nat
  messages : List Nat
  status : ProposalStatus
  finalTallyResult : TallyResult
  depositEndTime : Nat
  votingEndTime : Nat
  totalDeposit : Nat
deriving DecidableEq, Repr

/-- A deposit locked against a proposal. -/
structure Deposit where
  proposalId : Nat
  depositor : String
  amount : Nat
deriving DecidableEq, Repr

/-- A vote record (opaque options; the tally engine is external). -/
structure Vote where
  proposalId : Nat
  voter : String
deriving DecidableEq, Repr

/-- The opaque key-value store that payload handlers write to. -/
abbrev PropStore := List (String × String)

/-- A content or message handler: takes the (cache) store and returns the
updated store, the module events it emitted, and an optional error.  A
failing handler may have written to the store it was given before failing,
exactly as a Go handler may write to the cache context before erroring. -/
abbrev Handler := PropStore → PropStore × List MEvent × Option String

/-- The full governance state.  `burnLog` and `refundLog` are observation
ledgers for the external burn/refund collaborator: each entry records the
proposal id and the amount burned or refunded by one
DeleteAndBurnDeposits / RefundAndDeleteDeposits call. -/
structure GovState where
  proposals : List Proposal
  proposalsV2 : List ProposalV2
  deposits : List Deposit
  votes : List Vote
  inactiveQueue : List (Nat × Nat)
  activeQueue : List (Nat × Nat)
  store : PropStore
  events : List Event
  burnLog : List (Nat × Nat)
  refundLog : List (Nat × Nat)
  hooksInactive : List Nat
  hooksVotingEnd : List Nat
  nextProposalId : Nat
  depositParams : Nat
  votingParams : Nat
  tallyParams : Nat
  moduleAccSet : Bool
deriving DecidableEq, Repr

/-- External collaborators of EndBlocker: the tally engine, the V1 content
router and the V2 message router. -/
structure GovEnv where
  tally : Nat → Bool × Bool × TallyResult
  getRoute : String → Handler
  msgHandler : Nat → Handler

/-- Modelled from the spec: keeper.GetProposal, the V1 proposal lookup of the
State Access Layer (the keeper is not under src/). -/
def lookupProposal (s : GovState) (pid : Nat) : Option Proposal :=
  s.proposals.find? (fun p => p.proposalId == pid)

/-- Modelled from the spec: keeper.GetProposalV2. -/
def lookupProposalV2 (s : GovState) (pid : Nat) : Option ProposalV2 :=
  s.proposalsV2.find? (fun p => p.proposalId == pid)

/-- Sum of the stored deposits of one proposal. -/
def depositsOf (s : GovState) (pid : Nat) : Nat :=
  ((s.deposits.filter (fun d => d.proposalId == pid)).map (fun d => d.amount)).sum

/-- Modelled from the spec: keeper.DeleteProposal removes the proposal record;
per the data-model invariant a queue entry's existence is tied 1:1 to the
owning proposal, so its queue keys are removed with it. -/
def deleteProposal (s : GovState) (pid : Nat) : GovState :=
  { s with proposals := s.proposals.filter (fun p => p.proposalId != pid)
           proposalsV2 := s.proposalsV2.filter (fun p => p.proposalId != pid)
           inactiveQueue := s.inactiveQueue.filter (fun e => e.2 != pid)
           activeQueue := s.activeQueue.filter (fun e => e.2 != pid) }

/-- Modelled from the spec: keeper.DeleteAndBurnDeposits deletes the stored
deposits of the proposal and burns their total through the ledger
collaborator; the burn is recorded on the observation ledger. -/
def deleteAndBurnDeposits (s : GovState) (pid : Nat) : GovState :=
  { s with burnLog := s.burnLog ++ [(pid, depositsOf s pid)]
           deposits := s.deposits.filter (fun d => d.proposalId != pid) }

/-- Modelled from the spec: keeper.RefundAndDeleteDeposits refunds the stored
deposits to their depositors and deletes them. -/
def refundAndDeleteDeposits (s : GovState) (pid : Nat) : GovState :=
  { s with refundLog := s.refundLog ++ [(pid, depositsOf s pid)]
           deposits := s.deposits.filter (fun d => d.proposalId != pid) }

/-- Modelled from the spec: keeper.SetProposal stores a proposal under its id
(replacing an existing record, inserting otherwise). -/
def setProposal (s : GovState) (p : Proposal) : GovState :=
  if s.proposals.any (fun q => q.proposalId == p.proposalId) then
    { s with proposals :=
        s.proposals.map (fun q => if q.proposalId == p.proposalId then p else q) }
  else
    { s with proposals := s.proposals ++ [p] }

/-- Modelled from the spec: keeper.SetProposalV2. -/
def setProposalV2 (s : GovState) (p : ProposalV2) : GovState :=
  if s.proposalsV2.any (fun q => q.proposalId == p.proposalId) then
    { s with proposalsV2 :=
        s.proposalsV2.map (fun q => if q.proposalId == p.proposalId then p else q) }
  else
    { s with proposalsV2 := s.proposalsV2 ++ [p] }

/-- Modelled from the spec: keeper.RemoveFromActiveProposalQueue removes the
queue entry keyed (endTime, proposalId). -/
def removeFromActiveProposalQueue (s : GovState) (pid endTime : Nat) : GovState :=
  { s with activeQueue :=
      s.activeQueue.filter (fun e => !(e.1 == endTime && e.2 == pid)) }

/-- Modelled from the spec: keeper.InsertInactiveProposalQueue, an idempotent
insert keyed (endTime, proposalId). -/
def insertInactiveProposalQueue (s : GovState) (pid endTime : Nat) : GovState :=
  if s.inactiveQueue.contains (endTime, pid) then s
  else { s with inactiveQueue := s.inactiveQueue ++ [(endTime, pid)] }

/-- Modelled from the spec: keeper.InsertActiveProposalQueue. -/
def insertActiveProposalQueue (s : GovState) (pid endTime : Nat) : GovState :=
  if s.activeQueue.contains (endTime, pid) then s
  else { s with activeQueue := s.activeQueue ++ [(endTime, pid)] }

/-- Queue entries whose expiry is at or before the block time, collected
before any mutation (spec section 4.1). -/
def expiredEntries (q : List (Nat × Nat)) (t : Nat) : List (Nat × Nat) :=
  q.filter (fun e => decide (e.1 ≤ t))

/-- The body shared by both inactive-queue drains (abci.go lines 20-44 and
118-141): delete the proposal, delete and burn its deposits, invoke the
proposal-became-inactive hook, emit the Dropped event. -/
def inactiveStep (s : GovState) (pid : Nat) : GovState :=
  let s1 := deleteProposal s pid
  let s2 := deleteAndBurnDeposits s1 pid
  let s3 := { s2 with hooksInactive := s2.hooksInactive ++ [pid] }
  { s3 with events := s3.events ++ [Event.inactiveProposal pid] }

/-- One V1 inactive-queue entry: the callback of
IterateInactiveProposalsQueue loads the proposal and runs the drain body. -/
def processInactiveV1 (s : GovState) (e : Nat × Nat) : GovState :=
  match lookupProposal s e.2 with
  | some p => inactiveStep s p.proposalId
  | none => s

/-- V1 inactive-queue drain (abci.go lines 20-44). -/
def inactiveDrainV1 (t : Nat) (s : GovState) : GovState :=
  (expiredEntries s.inactiveQueue t).foldl processInactiveV1 s

/-- One V2 inactive-queue entry (abci.go lines 118-141). -/
def processInactiveV2 (s : GovState) (e : Nat × Nat) : GovState :=
  match lookupProposalV2 s e.2 with
  | some p => inactiveStep s p.proposalId
  | none => s

/-- V2 inactive-queue drain. -/
def inactiveDrainV2 (t : Nat) (s : GovState) : GovState :=
  (expiredEntries s.inactiveQueue t).foldl processInactiveV2 s

/-- Outcome tag attribute value for a terminal status. -/
def tagOf : ProposalStatus → String
  | ProposalStatus.passed => "proposal_passed"
  | ProposalStatus.failed => "proposal_failed"
  | ProposalStatus.rejected => "proposal_rejected"
  | _ => ""

/-- The common tail of both active-queue drain bodies (abci.go lines 90-111
and 200-221): persist the updated proposal, remove the queue entry keyed by
the voting end time, invoke the voting-period-ended hook and emit the
terminal event with the outcome tag. -/
def proposalFinishV1 (s2 : GovState) (p2 : Proposal) (tag : String) : GovState :=
  let s3 := setProposal s2 p2
  let s4 := removeFromActiveProposalQueue s3 p2.proposalId p2.votingEndTime
  let s5 := { s4 with hooksVotingEnd := s4.hooksVotingEnd ++ [p2.proposalId] }
  { s5 with events := s5.events ++ [Event.activeProposal p2.proposalId tag] }

/-- The V2 version of the common tail, using SetProposalV2. -/
def proposalFinishV2 (s2 : GovState) (p2 : ProposalV2) (tag : String) : GovState :=
  let s3 := setProposalV2 s2 p2
  let s4 := removeFromActiveProposalQueue s3 p2.proposalId p2.votingEndTime
  let s5 := { s4 with hooksVotingEnd := s4.hooksVotingEnd ++ [p2.proposalId] }
  { s5 with events := s5.events ++ [Event.activeProposal p2.proposalId tag] }

/-- The body of the V1 active-queue drain for one proposal (abci.go lines
47-113): tally, burn or refund deposits, on a pass run the content handler
in a cache context, commit writes and re-emit cache events only on handler
success, then the common tail. -/
def activeStepV1 (env : GovEnv) (s : GovState) (p : Proposal) : GovState :=
  let tr := env.tally p.proposalId
  let s1 := if tr.2.1 then deleteAndBurnDeposits s p.proposalId
            else refundAndDeleteDeposits s p.proposalId
  if tr.1 then
    let r := env.getRoute p.proposalRoute s1.store
    if r.2.2 = none then
      proposalFinishV1
        { s1 with events := s1.events ++ r.2.1.map Event.modEvent
                  store := r.1 }
        { p with status := ProposalStatus.passed, finalTallyResult := tr.2.2 }
        "proposal_passed"
    else
      proposalFinishV1 s1
        { p with status := ProposalStatus.failed, finalTallyResult := tr.2.2 }
        "proposal_failed"
  else
    proposalFinishV1 s1
      { p with status := ProposalStatus.rejected, finalTallyResult := tr.2.2 }
      "proposal_rejected"

/-- One V1 active-queue entry. -/
def processActiveV1 (env : GovEnv) (s : GovState) (e : Nat × Nat) : GovState :=
  match lookupProposal s e.2 with
  | some p => activeStepV1 env s p
  | none => s

/-- V1 active-queue drain. -/
def activeDrainV1 (env : GovEnv) (t : Nat) (s : GovState) : GovState :=
  (expiredEntries s.activeQueue t).foldl (processActiveV1 env) s

/-- The V2 message loop (abci.go lines 163-174).  Runs the messages in list
order against the cache store, accumulating cache events; the inner error
declared by the short variable declaration on line 170 causes the loop to
break at the first failure.  Returns the cache store, the accumulated cache
events, the final value of `idx` (the index of the last message executed)
and the inner error of the last iteration. -/
def msgLoopGo (router : Nat → Handler) (st : PropStore) (evs : List MEvent)
    (idx : Nat) : List Nat → PropStore × List MEvent × Nat × Option String
  | [] => (st, evs, idx, none)
  | m :: rest =>
    let r := router m st
    match r.2.2 with
    | some e => (r.1, evs ++ r.2.1, idx, some e)
    | none =>
      match rest with
      | [] => (r.1, evs ++ r.2.1, idx, none)
      | _ :: _ => msgLoopGo router r.1 (evs ++ r.2.1) (idx + 1) rest

/-- The body of the V2 active-queue drain for one proposal (abci.go lines
144-222).  The outer `err` declared by `var err error` on line 164 is never
assigned: line 170 uses `:=`, declaring a fresh `err` scoped to the loop
body, so after the loop the outer `err` is still nil and the check on line
176 always takes the success branch. -/
def activeStepV2 (env : GovEnv) (s : GovState) (p : ProposalV2) : GovState :=
  let tr := env.tally p.proposalId
  let s1 := if tr.2.1 then deleteAndBurnDeposits s p.proposalId
            else refundAndDeleteDeposits s p.proposalId
  if tr.1 then
    let r := msgLoopGo env.msgHandler s1.store [] 0 p.messages
    let err : Option String := none
    if err = none then
      proposalFinishV2
        { s1 with events := s1.events ++ r.2.1.map Event.modEvent
                  store := r.1 }
        { p with status := ProposalStatus.passed, finalTallyResult := tr.2.2 }
        "proposal_passed"
    else
      -- dead branch: this is where StatusFailed and the failing index
      -- r.2.2.1 would be recorded if the outer err were ever assigned
      proposalFinishV2 s1
        { p with status := ProposalStatus.failed, finalTallyResult := tr.2.2 }
        "proposal_failed"
  else
    proposalFinishV2 s1
      { p with status := ProposalStatus.rejected, finalTallyResult := tr.2.2 }
      "proposal_rejected"

/-- One V2 active-queue entry. -/
def processActiveV2 (env : GovEnv) (s : GovState) (e : Nat × Nat) : GovState :=
  match lookupProposalV2 s e.2 with
  | some p => activeStepV2 env s p
  | none => s

/-- V2 active-queue drain. -/
def activeDrainV2 (env : GovEnv) (t : Nat) (s : GovState) : GovState :=
  (expiredEntries s.activeQueue t).foldl (processActiveV2 env) s

/-- EndBlocker (abci.go lines 14-223): the four drains in source order. -/
def endBlocker (env : GovEnv) (t : Nat) (s : GovState) : GovState :=
  let s1 := inactiveDrainV1 t s
  let s2 := activeDrainV1 env t s1
  let s3 := inactiveDrainV2 t s2
  activeDrainV2 env t s3

/-- External collaborators of InitGenesis: the account keeper (governance
module account, possibly unset) and the bank keeper (balances). -/
structure BankEnv where
  moduleAccount : Option String
  balanceOf : String → Nat

/-- The genesis snapshot (x/gov/types GenesisState). -/
structure GenesisState where
  startingProposalId : Nat
  deposits : List Deposit
  votes : List Vote
  proposals : List Proposal
  proposalsV2 : List ProposalV2
  depositParams : Nat
  votingParams : Nat
  tallyParams : Nat
deriving DecidableEq, Repr

/-- The empty governance state InitGenesis starts from. -/
def emptyGov : GovState :=
  { proposals := [], proposalsV2 := [], deposits := [], votes := []
    inactiveQueue := [], activeQueue := [], store := [], events := []
    burnLog := [], refundLog := [], hooksInactive := [], hooksVotingEnd := []
    nextProposalId := 0, depositParams := 0, votingParams := 0
    tallyParams := 0, moduleAccSet := false }

/-- The per-proposal body of the V1 genesis import loop (genesis.go lines
34-42): queue insertion switched on the status field, then SetProposal. -/
def genesisStepV1 (s : GovState) (p : Proposal) : GovState :=
  let s1 :=
    match p.status with
    | ProposalStatus.depositPeriod =>
        insertInactiveProposalQueue s p.proposalId p.depositEndTime
    | ProposalStatus.votingPeriod =>
        insertActiveProposalQueue s p.proposalId p.votingEndTime
    | _ => s
  setProposal s1 p

/-- The per-proposal body of the V2 genesis import loop (genesis.go lines
44-52). -/
def genesisStepV2 (s : GovState) (p : ProposalV2) : GovState :=
  let s1 :=
    match p.status with
    | ProposalStatus.depositPeriod =>
        insertInactiveProposalQueue s p.proposalId p.depositEndTime
    | ProposalStatus.votingPeriod =>
        insertActiveProposalQueue s p.proposalId p.votingEndTime
    | _ => s
  setProposalV2 s1 p

/-- Total amount of a deposit list, as accumulated by the genesis deposit
loop (genesis.go lines 24-28). -/
def depositTotal (ds : List Deposit) : Nat :=
  (ds.map (fun d => d.amount)).sum

/-- InitGenesis (genesis.go lines 12-64).  A Go panic is modelled as an
Except.error result: there is no recovery path, the error aborts startup. -/
def initGenesis (env : BankEnv) (g : GenesisState) (s0 : GovState) :
    Except String GovState :=
  let s := { s0 with nextProposalId := g.startingProposalId
                     depositParams := g.depositParams
                     votingParams := g.votingParams
                     tallyParams := g.tallyParams }
  match env.moduleAccount with
  | none => Except.error "gov module account has not been set"
  | some acc =>
    let s := { s with deposits := s.deposits ++ g.deposits }
    let totalDeposits := depositTotal g.deposits
    let s := { s with votes := s.votes ++ g.votes }
    let s := g.proposals.foldl genesisStepV1 s
    let s := g.proposalsV2.foldl genesisStepV2 s
    let balance := env.balanceOf acc
    let s := if balance = 0 then { s with moduleAccSet := true } else s
    if balance = totalDeposits then Except.ok s
    else Except.error "expected genesis deposits to equal the module account balance"

/-- A decimal slash fraction (sdk.Dec), kept opaque. -/
structure Dec where
  num : Int
deriving DecidableEq, Repr

/-- Modelled from the spec: sdk.Dec.RoundInt64, used by the slash call for
the power argument; opaque rounding of the recorded fraction. -/
def Dec.roundInt64 (d : Dec) : Int := d.num

/-- A queued slash event (x/slashing/types SlashEvent). -/
structure SlashEvent where
  address : String
  slashedSoFar : Dec
deriving DecidableEq, Repr

/-- A validator as returned by the staking keeper lookup; only its
consensus address is relevant here. -/
structure Validator where
  consAddr : String
deriving DecidableEq, Repr

/-- The staking keeper collaborator: validator lookup by operator address.
A `none` result models the nil interface the Go keeper returns when no
validator exists at the address. -/
structure StakingEnv where
  validator : String → Option Validator

/-- Modelled from the spec: sdk.ValidatorUpdateDelay, the constant delay
(value 1) between a validator-set update and its effect. -/
def validatorUpdateDelay : Int := 1

/-- A slash application as it would be passed to the staking keeper. -/
structure SlashCall where
  consAddr : String
  distributionHeight : Int
  power : Int
  fraction : Dec
deriving DecidableEq, Repr

/-- Errors surfaced by the deferred-action handlers. -/
inductive SlashErr where
  | badValidatorAddr
  | invalidAddress
  | unjailFailed (m : String)
deriving DecidableEq, Repr

/-- Outcome of running a deferred-action handler: a normal return value, a
returned error, or a Go runtime panic. -/
inductive ExecOutcome (α : Type) where
  | ok (a : α)
  | errored (e : SlashErr)
  | panicked (m : String)
deriving DecidableEq, Repr

/-- Shallow embedding of executeQueuedSlashEvent (epoch_exec.go lines
32-44).  Line 34 checks `validator != nil` and returns ErrBadValidatorAddr
when the validator IS found; in the remaining branch `validator` is the nil
interface, so the call `validator.GetConsAddr()` on line 37 dereferences nil
and panics.  The Slash call on line 42 is therefore unreachable: no
execution path produces an `ok` outcome. -/
def executeQueuedSlashEvent (sk : StakingEnv) (blockHeight : Int)
    (msg : SlashEvent) : ExecOutcome SlashCall :=
  match sk.validator msg.address with
  | some _ => ExecOutcome.errored SlashErr.badValidatorAddr
  | none => ExecOutcome.panicked "nil validator dereference"

/-- The slash application the spec describes for a SlashEvent: slash the
looked-up validator at distribution height
current height minus validatorUpdateDelay minus 1 with the recorded
fraction.  This is the spec-side reading, stated for comparison with the
code-side `executeQueuedSlashEvent`. -/
def slashEventSpecCall (blockHeight : Int) (v : Validator)
    (msg : SlashEvent) : SlashCall :=
  { consAddr := v.consAddr
    distributionHeight := blockHeight - validatorUpdateDelay - 1
    power := msg.slashedSoFar.roundInt64
    fraction := msg.slashedSoFar }

/-- External collaborators of the epoch executor: the staking keeper, the
bech32 address parser and the Unjail operation of the slashing keeper. -/
structure SlashingEnv where
  staking : StakingEnv
  parseValAddr : String → Option String
  unjail : PropStore → String → Except String PropStore

/-- Shallow embedding of executeQueuedUnjailMsg (epoch_exec.go lines
11-30): parse the validator address, attempt the unjail, emit a message
event on success.  The event goes to the cache context event manager, which
ExecuteEpoch never merges back, so it is not observable here. -/
def executeQueuedUnjailMsg (env : SlashingEnv) (st : PropStore)
    (validatorAddr : String) : PropStore × Option String :=
  match env.parseValAddr validatorAddr with
  | none => (st, some "invalid validator address")
  | some valAddr =>
    match env.unjail st valAddr with
    | Except.error e => (st, some e)
    | Except.ok st2 => (st2, none)

/-- A deferred action as stored on the epoch queue. -/
inductive EpochAction where
  | unjailMsg (validatorAddr : String)
  | slashEvent (ev : SlashEvent)
deriving DecidableEq, Repr

/-- State seen by the epoch executor: the base store and the action queue
(key, action) in FIFO order. -/
structure EpochState where
  store : PropStore
  queue : List (Nat × EpochAction)
deriving DecidableEq, Repr

/-- Result of one ExecuteEpoch run: normal completion, or a runtime panic
unwinding out of the loop with the state as it was at the panic point (the
action being processed has NOT been dequeued). -/
inductive EpochRun where
  | done (s : EpochState)
  | panicked (s : EpochState) (m : String)
deriving DecidableEq, Repr

/-- Modelled from the spec: the epoch keeper DeleteByKey, removing one
queue entry. -/
def deleteByKey (s : EpochState) (key : Nat) : EpochState :=
  { s with queue := s.queue.filter (fun e => e.1 != key) }

/-- The loop body of ExecuteEpoch (epoch_exec.go lines 49-75) over a
snapshot of the queue.  For a MsgUnjail the handler runs on the cache
context and writeCache commits on success; for a SlashEvent the handler is
given the base context ctx (line 63), not cacheCtx, and a runtime panic
inside it unwinds before the DeleteByKey on line 74. -/
def executeEpochGo (env : SlashingEnv) (blockHeight : Int) :
    EpochState → List (Nat × EpochAction) → EpochRun
  | s, [] => EpochRun.done s
  | s, (key, act) :: rest =>
    let cacheStore := s.store
    match act with
    | EpochAction.unjailMsg addr =>
      let r := executeQueuedUnjailMsg env cacheStore addr
      let s1 := if r.2 = none then { s with store := r.1 } else s
      executeEpochGo env blockHeight (deleteByKey s1 key) rest
    | EpochAction.slashEvent ev =>
      match executeQueuedSlashEvent env.staking blockHeight ev with
      | ExecOutcome.ok _ =>
        executeEpochGo env blockHeight (deleteByKey { s with store := cacheStore } key) rest
      | ExecOutcome.errored _ =>
        executeEpochGo env blockHeight (deleteByKey s key) rest
      | ExecOutcome.panicked m => EpochRun.panicked s m

/-- ExecuteEpoch (epoch_exec.go lines 47-76). -/
def executeEpoch (env : SlashingEnv) (blockHeight : Int) (s : EpochState) :
    EpochRun :=
  executeEpochGo env blockHeight s s.queue

/-- Entries of a (time, id) queue belonging to one proposal id. -/
def qFilter (pid : Nat) (q : List (Nat × Nat)) : List (Nat × Nat) :=
  q.filter (fun e => e.2 == pid)

/-- Deposits belonging to one proposal id. -/
def depFilter (pid : Nat) (l : List Deposit) : List Deposit :=
  l.filter (fun d => d.proposalId == pid)

/-- Ledger entries belonging to one proposal id. -/
def logFilter (pid : Nat) (l : List (Nat × Nat)) : List (Nat × Nat) :=
  l.filter (fun e => e.1 == pid)

/-- Whether an engine event mentions the given proposal id. -/
def eventAbout (pid : Nat) : Event → Bool
  | Event.inactiveProposal q => q == pid
  | Event.activeProposal q _ => q == pid
  | Event.modEvent _ => false

/-- Events mentioning one proposal id. -/
def evFilter (pid : Nat) (l : List Event) : List Event :=
  l.filter (eventAbout pid)

/-- Hook invocations for one proposal id. -/
def natFilter (pid : Nat) (l : List Nat) : List Nat :=
  l.filter (fun q => q == pid)

/-- The queue membership the spec demands of one imported proposal, as a
function of its status: DepositPeriod proposals sit exactly once in the
inactive queue keyed by the deposit end time and nowhere in the active
queue; VotingPeriod proposals mirror that; terminal proposals sit in
neither queue. -/
def QueuedRight (s : GovState) (pid det vet : Nat) (st : ProposalStatus) : Prop :=
  (st = ProposalStatus.depositPeriod →
    qFilter pid s.inactiveQueue = [(det, pid)] ∧
    qFilter pid s.activeQueue = []) ∧
  (st = ProposalStatus.votingPeriod →
    qFilter pid s.activeQueue = [(vet, pid)] ∧
    qFilter pid s.inactiveQueue = []) ∧
  (st ≠ ProposalStatus.depositPeriod → st ≠ ProposalStatus.votingPeriod →
    qFilter pid s.inactiveQueue = [] ∧ qFilter pid s.activeQueue = [])

/-- Test message router for the V2 shadowed-error scenario: message 0
writes k1 and succeeds, message 1 writes k2 and then fails, message 2
writes k3 and succeeds. -/
def msgRouterC1 : Nat → Handler
  | 0 => fun st => (st ++ [("k1", "v1")], [], none)
  | 1 => fun st => (st ++ [("k2", "v2")], [], some "boom")
  | _ => fun st => (st ++ [("k3", "v3")], [], none)

/-- Environment for the V2 shadowed-error scenario: the tally passes the
proposal without burning. -/
def envC1 : GovEnv :=
  { tally := fun _ => (true, false, ⟨1, 0, 0, 0⟩)
    getRoute := fun _ => fun st => (st, [], none)
    msgHandler := msgRouterC1 }

/-- A passed V2 proposal with a three-message payload whose second message
fails. -/
def proposalC1 : ProposalV2 :=
  { proposalId := 7, messages := [0, 1, 2]
    status := ProposalStatus.votingPeriod
    finalTallyResult := ⟨0, 0, 0, 0⟩
    depositEndTime := 0, votingEndTime := 10, totalDeposit := 0 }

/-- State holding only that V2 proposal, due in the active queue. -/
def stateC1 : GovState :=
  { emptyGov with proposalsV2 := [proposalC1], activeQueue := [(10, 7)] }

/-- A staking environment with one registered validator. -/
def skC2 : StakingEnv :=
  { validator := fun a =>
      if a = "cosmosvaloper1" then some ⟨"consaddr1"⟩ else none }

/-- A slash event whose address resolves to that validator. -/
def msgC2 : SlashEvent := { address := "cosmosvaloper1", slashedSoFar := ⟨5⟩ }

/-- Epoch environment whose validator lookup always fails. -/
def envC3 : SlashingEnv :=
  { staking := { validator := fun _ => none }
    parseValAddr := fun a => some a
    unjail := fun st _ => Except.ok st }

/-- Epoch state with a single queued slash event for an unknown validator. -/
def stateC3 : EpochState :=
  { store := []
    queue := [(0, EpochAction.slashEvent
      { address := "cosmosvaloper2", slashedSoFar := ⟨1⟩ })] }

/-- A staking environment that finds a validator at every address. -/
def skC10 : StakingEnv := { validator := fun _ => some ⟨"c"⟩ }

/-- An arbitrary slash event for the C10 witness. -/
def msgC10 : SlashEvent := { address := "a", slashedSoFar := ⟨2⟩ }

/-- A content handler that writes and emits an event, then fails. -/
def handlerC4fail : Handler :=
  fun st => (st ++ [("x", "1")], [⟨"ev"⟩], some "fail")

/-- Environment whose tally passes without burn and whose content handler
fails. -/
def envC4 : GovEnv :=
  { tally := fun _ => (true, false, ⟨2, 0, 1, 0⟩)
    getRoute := fun _ => handlerC4fail
    msgHandler := fun _ => fun st => (st, [], none) }

/-- A V1 proposal in voting period with one deposit. -/
def proposalC4 : Proposal :=
  { proposalId := 3, proposalRoute := "gov"
    status := ProposalStatus.votingPeriod, finalTallyResult := ⟨0, 0, 0, 0⟩
    depositEndTime := 0, votingEndTime := 5, totalDeposit := 4 }

/-- State holding that proposal and its deposit. -/
def stateC4 : GovState :=
  { emptyGov with proposals := [proposalC4]
                  deposits := [⟨3, "alice", 4⟩]
                  activeQueue := [(5, 3)] }

/-- Environment whose tally rejects without burning. -/
def envW : GovEnv :=
  { tally := fun _ => (false, false, ⟨0, 0, 0, 0⟩)
    getRoute := fun _ => fun st => (st, [], none)
    msgHandler := fun _ => fun st => (st, [], none) }

/-- A deposit-period proposal about to expire. -/
def proposalC6 : Proposal :=
  { proposalId := 1, proposalRoute := "gov"
    status := ProposalStatus.depositPeriod, finalTallyResult := ⟨0, 0, 0, 0⟩
    depositEndTime := 5, votingEndTime := 0, totalDeposit := 10 }

/-- State holding that proposal, its deposit and its queue entry. -/
def stateC6 : GovState :=
  { emptyGov with proposals := [proposalC6]
                  deposits := [⟨1, "alice", 10⟩]
                  inactiveQueue := [(5, 1)] }

/-- A voting-period proposal about to expire. -/
def proposalC7 : Proposal :=
  { proposalId := 2, proposalRoute := "gov"
    status := ProposalStatus.votingPeriod, finalTallyResult := ⟨0, 0, 0, 0⟩
    depositEndTime := 0, votingEndTime := 6, totalDeposit := 0 }

/-- State holding that proposal and its active-queue entry. -/
def stateC7 : GovState :=
  { emptyGov with proposals := [proposalC7], activeQueue := [(6, 2)] }

/-- A bank environment whose module account balance disagrees with the
genesis deposits. -/
def bankEnvC8 : BankEnv :=
  { moduleAccount := some "gov", balanceOf := fun _ => 7 }

/-- A genesis snapshot with a 3-coin deposit against a 7-coin balance. -/
def genesisC8 : GenesisState :=
  { startingProposalId := 1, deposits := [⟨1, "alice", 3⟩], votes := []
    proposals := [], proposalsV2 := [], depositParams := 0
    votingParams := 0, tallyParams := 0 }

/-- A bank environment matching the C9 genesis deposits. -/
def bankEnvC9 : BankEnv :=
  { moduleAccount := some "gov", balanceOf := fun _ => 9 }

/-- A genesis snapshot with one proposal of each queue-relevant status plus
a V2 deposit-period proposal. -/
def genesisC9 : GenesisState :=
  { startingProposalId := 5
    deposits := [⟨1, "alice", 9⟩]
    votes := []
    proposals := [
      { proposalId := 1, proposalRoute := "gov"
        status := ProposalStatus.depositPeriod
        finalTallyResult := ⟨0, 0, 0, 0⟩
        depositEndTime := 11, votingEndTime := 0, totalDeposit := 9 },
      { proposalId := 2, proposalRoute := "gov"
        status := ProposalStatus.votingPeriod
        finalTallyResult := ⟨0, 0, 0, 0⟩
        depositEndTime := 0, votingEndTime := 12, totalDeposit := 0 },
      { proposalId := 3, proposalRoute := "gov"
        status := ProposalStatus.passed
        finalTallyResult := ⟨0, 0, 0, 0⟩
        depositEndTime := 0, votingEndTime := 0, totalDeposit := 0 } ]
    proposalsV2 := [
      { proposalId := 4, messages := []
        status := ProposalStatus.depositPeriod
        finalTallyResult := ⟨0, 0, 0, 0⟩
        depositEndTime := 13, votingEndTime := 0, totalDeposit := 0 } ]
    depositParams := 0, votingParams := 0, tallyParams := 0 }

theorem find?_filter_imp {α : Type} (p q : α → Bool) (l : List α)
    (h : ∀ a, p a = true → q a = true) :
    (l.filter q).find? p = l.find? p := by
  induction l with
  | nil => rfl
  | cons a t ih =>
    cases hq : q a with
    | true =>
      rw [List.filter_cons, if_pos hq]
      cases hp : p a with
      | true => rw [List.find?_cons_of_pos _ hp, List.find?_cons_of_pos _ hp]
      | false =>
        rw [List.find?_cons_of_neg _ (by simp [hp]),
          List.find?_cons_of_neg _ (by simp [hp]), ih]
    | false =>
      have hp : p a = false := by
        cases hp : p a
        · rfl
        · exact absurd (h a hp) (by simp [hq])
      rw [List.filter_cons, if_neg (by simp [hq]),
        List.find?_cons_of_neg _ (by simp [hp]), ih]

theorem find?_map_invariant {α : Type} (p : α → Bool) (g : α → α) (l : List α)
    (h1 : ∀ a, p (g a) = p a) (h2 : ∀ a, p a = true → g a = a) :
    (l.map g).find? p = l.find? p := by
  induction l with
  | nil => rfl
  | cons a t ih =>
    cases hp : p a with
    | true =>
      have hga : p (g a) = true := (h1 a).trans hp
      rw [List.map_cons, List.find?_cons_of_pos _ hga,
        List.find?_cons_of_pos _ hp, h2 a hp]
    | false =>
      have hga : p (g a) = false := (h1 a).trans hp
      rw [List.map_cons, List.find?_cons_of_neg _ (by simp [hga]),
        List.find?_cons_of_neg _ (by simp [hp]), ih]

theorem filter_eq_single_decomp {α : Type} (p : α → Bool) (l : List α) (x : α)
    (h : l.filter p = [x]) :
    ∃ l1 l2, l = l1 ++ x :: l2 ∧ l1.filter p = [] ∧ l2.filter p = [] := by
  induction l with
  | nil => simp at h
  | cons a t ih =>
    rw [List.filter_cons] at h
    cases hp : p a with
    | true =>
      rw [if_pos (by simp [hp])] at h
      simp only [List.cons.injEq] at h
      exact ⟨[], t, by simp [h.1], rfl, h.2⟩
    | false =>
      rw [if_neg (by simp [hp])] at h
      obtain ⟨l1, l2, rfl, h1, h2⟩ := ih h
      exact ⟨a :: l1, l2, rfl, by rw [List.filter_cons, if_neg (by simp [hp]), h1], h2⟩

/-- All per-proposal observables of the governance state that the claims
talk about, for a fixed proposal id: whatever a drain does to OTHER
proposals leaves these unchanged. -/
structure PidFrame (pid : Nat) (s t : GovState) : Prop where
  lk1 : lookupProposal t pid = lookupProposal s pid
  lk2 : lookupProposalV2 t pid = lookupProposalV2 s pid
  dep : depFilter pid t.deposits = depFilter pid s.deposits
  brn : logFilter pid t.burnLog = logFilter pid s.burnLog
  rfd : logFilter pid t.refundLog = logFilter pid s.refundLog
  evs : evFilter pid t.events = evFilter pid s.events
  hkI : natFilter pid t.hooksInactive = natFilter pid s.hooksInactive
  hkV : natFilter pid t.hooksVotingEnd = natFilter pid s.hooksVotingEnd
  qIn : qFilter pid t.inactiveQueue = qFilter pid s.inactiveQueue
  qAc : qFilter pid t.activeQueue = qFilter pid s.activeQueue

theorem pidFrame_refl (pid : Nat) (s : GovState) : PidFrame pid s s :=
  ⟨rfl, rfl, rfl, rfl, rfl, rfl, rfl, rfl, rfl, rfl⟩

theorem pidFrame_trans {pid : Nat} {s t u : GovState}
    (h1 : PidFrame pid s t) (h2 : PidFrame pid t u) : PidFrame pid s u :=
  ⟨h2.lk1.trans h1.lk1, h2.lk2.trans h1.lk2, h2.dep.trans h1.dep,
   h2.brn.trans h1.brn, h2.rfd.trans h1.rfd, h2.evs.trans h1.evs,
   h2.hkI.trans h1.hkI, h2.hkV.trans h1.hkV, h2.qIn.trans h1.qIn,
   h2.qAc.trans h1.qAc⟩

theorem qFilter_filter_ne (pid pid' : Nat) (h : pid' ≠ pid)
    (q : List (Nat × Nat)) :
    qFilter pid (q.filter (fun e => e.2 != pid')) = qFilter pid q := by
  unfold qFilter
  rw [List.filter_filter]
  refine List.filter_congr (fun e _ => ?_)
  cases he : (e.2 == pid) with
  | true =>
    have he2 : e.2 = pid := by simpa using he
    simp [he2, bne_iff_ne, Ne.symm h]
  | false => simp [he]

theorem depFilter_filter_ne (pid pid' : Nat) (h : pid' ≠ pid)
    (l : List Deposit) :
    depFilter pid (l.filter (fun d => d.proposalId != pid')) = depFilter pid l := by
  unfold depFilter
  rw [List.filter_filter]
  refine List.filter_congr (fun d _ => ?_)
  cases he : (d.proposalId == pid) with
  | true =>
    have he2 : d.proposalId = pid := by simpa using he
    simp [he2, bne_iff_ne, Ne.symm h]
  | false => simp [he]

theorem logFilter_append_ne (pid pid' : Nat) (h : pid' ≠ pid)
    (l : List (Nat × Nat)) (amt : Nat) :
    logFilter pid (l ++ [(pid', amt)]) = logFilter pid l := by
  unfold logFilter
  rw [List.filter_append]
  simp [h]

theorem natFilter_append_ne (pid pid' : Nat) (h : pid' ≠ pid) (l : List Nat) :
    natFilter pid (l ++ [pid']) = natFilter pid l := by
  unfold natFilter
  rw [List.filter_append]
  simp [h]

theorem evFilter_append (pid : Nat) (l1 l2 : List Event) :
    evFilter pid (l1 ++ l2) = evFilter pid l1 ++ evFilter pid l2 := by
  unfold evFilter
  exact List.filter_append l1 l2

theorem evFilter_modEvents (pid : Nat) (l : List MEvent) :
    evFilter pid (l.map Event.modEvent) = [] := by
  induction l with
  | nil => rfl
  | cons a t ih => simpa [evFilter, eventAbout, List.filter_cons] using ih

theorem evFilter_inactive_ne (pid pid' : Nat) (h : pid' ≠ pid) :
    evFilter pid [Event.inactiveProposal pid'] = [] := by
  simp [evFilter, eventAbout, List.filter_cons, h]

theorem evFilter_active_ne (pid pid' : Nat) (h : pid' ≠ pid) (tag : String) :
    evFilter pid [Event.activeProposal pid' tag] = [] := by
  simp [evFilter, eventAbout, List.filter_cons, h]

theorem lookupProposal_deleteProposal_ne (s : GovState) (pid pid' : Nat)
    (h : pid' ≠ pid) :
    lookupProposal (deleteProposal s pid') pid = lookupProposal s pid := by
  unfold lookupProposal deleteProposal
  refine find?_filter_imp _ _ _ (fun p hp => ?_)
  have hp2 : p.proposalId = pid := by simpa using hp
  simp [bne_iff_ne, hp2, Ne.symm h]

theorem lookupProposalV2_deleteProposal_ne (s : GovState) (pid pid' : Nat)
    (h : pid' ≠ pid) :
    lookupProposalV2 (deleteProposal s pid') pid = lookupProposalV2 s pid := by
  unfold lookupProposalV2 deleteProposal
  refine find?_filter_imp _ _ _ (fun p hp => ?_)
  have hp2 : p.proposalId = pid := by simpa using hp
  simp [bne_iff_ne, hp2, Ne.symm h]

theorem deleteProposal_frame (pid pid' : Nat) (h : pid' ≠ pid) (s : GovState) :
    PidFrame pid s (deleteProposal s pid') := by
  refine ⟨lookupProposal_deleteProposal_ne s pid pid' h,
    lookupProposalV2_deleteProposal_ne s pid pid' h,
    rfl, rfl, rfl, rfl, rfl, rfl, ?_, ?_⟩
  · exact qFilter_filter_ne pid pid' h s.inactiveQueue
  · exact qFilter_filter_ne pid pid' h s.activeQueue

theorem deleteAndBurnDeposits_frame (pid pid' : Nat) (h : pid' ≠ pid)
    (s : GovState) : PidFrame pid s (deleteAndBurnDeposits s pid') := by
  refine ⟨rfl, rfl, ?_, ?_, rfl, rfl, rfl, rfl, rfl, rfl⟩
  · exact depFilter_filter_ne pid pid' h s.deposits
  · exact logFilter_append_ne pid pid' h s.burnLog _

theorem refundAndDeleteDeposits_frame (pid pid' : Nat) (h : pid' ≠ pid)
    (s : GovState) : PidFrame pid s (refundAndDeleteDeposits s pid') := by
  refine ⟨rfl, rfl, ?_, rfl, ?_, rfl, rfl, rfl, rfl, rfl⟩
  · exact depFilter_filter_ne pid pid' h s.deposits
  · exact logFilter_append_ne pid pid' h s.refundLog _

theorem lookupProposal_setProposal_ne (s : GovState) (pid : Nat) (p : Proposal)
    (h : p.proposalId ≠ pid) :
    lookupProposal (setProposal s p) pid = lookupProposal s pid := by
  unfold lookupProposal setProposal
  split
  · refine find?_map_invariant _ _ _ (fun a => ?_) (fun a ha => ?_)
    · by_cases he : (a.proposalId == p.proposalId) = true
      · have he2 : a.proposalId = p.proposalId := by simpa using he
        have l1 : (p.proposalId == pid) = false := by
          simp only [beq_eq_false_iff_ne]
          exact h
        have l2 : (a.proposalId == pid) = false := by
          simp only [beq_eq_false_iff_ne, he2]
          exact h
        simp [he, l1, l2]
      · simp [he]
    · have ha2 : a.proposalId = pid := by simpa using ha
      have : ¬(a.proposalId == p.proposalId) = true := by
        simp only [beq_iff_eq, ha2]
        exact fun hc => h hc.symm
      simp [this]
  · have hnone : List.find? (fun q : Proposal => q.proposalId == pid) [p] = none := by
      refine List.find?_eq_none.mpr (fun x hx => ?_)
      have hx2 : x = p := by simpa using hx
      subst hx2
      simp only [beq_iff_eq]
      exact h
    rw [List.find?_append, hnone, Option.or_none]

theorem lookupProposalV2_setProposal (s : GovState) (pid : Nat) (p : Proposal) :
    lookupProposalV2 (setProposal s p) pid = lookupProposalV2 s pid := by
  unfold lookupProposalV2 setProposal
  split <;> rfl

theorem setProposal_frame (pid : Nat) (p : Proposal) (h : p.proposalId ≠ pid)
    (s : GovState) : PidFrame pid s (setProposal s p) := by
  refine ⟨lookupProposal_setProposal_ne s pid p h,
    lookupProposalV2_setProposal s pid p, ?_, ?_, ?_, ?_, ?_, ?_, ?_, ?_⟩ <;>
    (unfold setProposal; split <;> rfl)

theorem lookupProposalV2_setProposalV2_ne (s : GovState) (pid : Nat)
    (p : ProposalV2) (h : p.proposalId ≠ pid) :
    lookupProposalV2 (setProposalV2 s p) pid = lookupProposalV2 s pid := by
  unfold lookupProposalV2 setProposalV2
  split
  · refine find?_map_invariant _ _ _ (fun a => ?_) (fun a ha => ?_)
    · by_cases he : (a.proposalId == p.proposalId) = true
      · have he2 : a.proposalId = p.proposalId := by simpa using he
        have l1 : (p.proposalId == pid) = false := by
          simp only [beq_eq_false_iff_ne]
          exact h
        have l2 : (a.proposalId == pid) = false := by
          simp only [beq_eq_false_iff_ne, he2]
          exact h
        simp [he, l1, l2]
      · simp [he]
    · have ha2 : a.proposalId = pid := by simpa using ha
      have : ¬(a.proposalId == p.proposalId) = true := by
        simp only [beq_iff_eq, ha2]
        exact fun hc => h hc.symm
      simp [this]
  · have hnone : List.find? (fun q : ProposalV2 => q.proposalId == pid) [p] = none := by
      refine List.find?_eq_none.mpr (fun x hx => ?_)
      have hx2 : x = p := by simpa using hx
      subst hx2
      simp only [beq_iff_eq]
      exact h
    rw [List.find?_append, hnone, Option.or_none]

theorem lookupProposal_setProposalV2 (s : GovState) (pid : Nat)
    (p : ProposalV2) :
    lookupProposal (setProposalV2 s p) pid = lookupProposal s pid := by
  unfold lookupProposal setProposalV2
  split <;> rfl

theorem setProposalV2_frame (pid : Nat) (p : ProposalV2)
    (h : p.proposalId ≠ pid) (s : GovState) :
    PidFrame pid s (setProposalV2 s p) := by
  refine ⟨lookupProposal_setProposalV2 s pid p,
    lookupProposalV2_setProposalV2_ne s pid p h, ?_, ?_, ?_, ?_, ?_, ?_, ?_, ?_⟩ <;>
    (unfold setProposalV2; split <;> rfl)

theorem qFilter_remove_ne (pid pid' t : Nat) (h : pid' ≠ pid)
    (q : List (Nat × Nat)) :
    qFilter pid (q.filter (fun e => !(e.1 == t && e.2 == pid'))) = qFilter pid q := by
  unfold qFilter
  rw [List.filter_filter]
  refine List.filter_congr (fun e _ => ?_)
  cases he : (e.2 == pid) with
  | true =>
    have he2 : e.2 = pid := by simpa using he
    simp [he2, Ne.symm h]
  | false => simp [he]

theorem removeFromActiveProposalQueue_frame (pid pid' t : Nat) (h : pid' ≠ pid)
    (s : GovState) : PidFrame pid s (removeFromActiveProposalQueue s pid' t) := by
  refine ⟨rfl, rfl, rfl, rfl, rfl, rfl, rfl, rfl, rfl, ?_⟩
  exact qFilter_remove_ne pid pid' t h s.activeQueue

theorem pidFrame_events_store (pid : Nat) (s : GovState) (ev : List Event)
    (st : PropStore) (hev : evFilter pid ev = []) :
    PidFrame pid s { s with events := s.events ++ ev, store := st } := by
  refine ⟨rfl, rfl, rfl, rfl, rfl, ?_, rfl, rfl, rfl, rfl⟩
  rw [evFilter_append, hev, List.append_nil]

theorem pidFrame_events (pid : Nat) (s : GovState) (ev : List Event)
    (hev : evFilter pid ev = []) :
    PidFrame pid s { s with events := s.events ++ ev } := by
  refine ⟨rfl, rfl, rfl, rfl, rfl, ?_, rfl, rfl, rfl, rfl⟩
  rw [evFilter_append, hev, List.append_nil]

theorem pidFrame_hooksInactive (pid pid' : Nat) (h : pid' ≠ pid) (s : GovState) :
    PidFrame pid s { s with hooksInactive := s.hooksInactive ++ [pid'] } := by
  refine ⟨rfl, rfl, rfl, rfl, rfl, rfl, ?_, rfl, rfl, rfl⟩
  exact natFilter_append_ne pid pid' h s.hooksInactive

theorem pidFrame_hooksVotingEnd (pid pid' : Nat) (h : pid' ≠ pid) (s : GovState) :
    PidFrame pid s { s with hooksVotingEnd := s.hooksVotingEnd ++ [pid'] } := by
  refine ⟨rfl, rfl, rfl, rfl, rfl, rfl, rfl, ?_, rfl, rfl⟩
  exact natFilter_append_ne pid pid' h s.hooksVotingEnd

theorem inactiveStep_frame (pid pid' : Nat) (h : pid' ≠ pid) (s : GovState) :
    PidFrame pid s (inactiveStep s pid') :=
  pidFrame_trans (deleteProposal_frame pid pid' h s)
    (pidFrame_trans (deleteAndBurnDeposits_frame pid pid' h _)
      (pidFrame_trans (pidFrame_hooksInactive pid pid' h _)
        (pidFrame_events pid _ _ (evFilter_inactive_ne pid pid' h))))

theorem proposalFinishV1_frame (pid : Nat) (s2 : GovState) (p2 : Proposal)
    (tag : String) (h : p2.proposalId ≠ pid) :
    PidFrame pid s2 (proposalFinishV1 s2 p2 tag) :=
  pidFrame_trans (setProposal_frame pid p2 h s2)
    (pidFrame_trans
      (removeFromActiveProposalQueue_frame pid p2.proposalId p2.votingEndTime h _)
      (pidFrame_trans (pidFrame_hooksVotingEnd pid p2.proposalId h _)
        (pidFrame_events pid _ _ (evFilter_active_ne pid p2.proposalId h tag))))

theorem proposalFinishV2_frame (pid : Nat) (s2 : GovState) (p2 : ProposalV2)
    (tag : String) (h : p2.proposalId ≠ pid) :
    PidFrame pid s2 (proposalFinishV2 s2 p2 tag) :=
  pidFrame_trans (setProposalV2_frame pid p2 h s2)
    (pidFrame_trans
      (removeFromActiveProposalQueue_frame pid p2.proposalId p2.votingEndTime h _)
      (pidFrame_trans (pidFrame_hooksVotingEnd pid p2.proposalId h _)
        (pidFrame_events pid _ _ (evFilter_active_ne pid p2.proposalId h tag))))

theorem activeStepV1_frame (env : GovEnv) (pid : Nat) (s : GovState)
    (p : Proposal) (h : p.proposalId ≠ pid) :
    PidFrame pid s (activeStepV1 env s p) := by
  simp only [activeStepV1]
  split
  · split
    · split
      · refine pidFrame_trans (deleteAndBurnDeposits_frame pid p.proposalId h s)
          (pidFrame_trans ?_ (proposalFinishV1_frame pid _ _ _ h))
        exact pidFrame_events_store pid _ _ _ (evFilter_modEvents pid _)
      · exact pidFrame_trans (deleteAndBurnDeposits_frame pid p.proposalId h s)
          (proposalFinishV1_frame pid _ _ _ h)
    · split
      · refine pidFrame_trans (refundAndDeleteDeposits_frame pid p.proposalId h s)
          (pidFrame_trans ?_ (proposalFinishV1_frame pid _ _ _ h))
        exact pidFrame_events_store pid _ _ _ (evFilter_modEvents pid _)
      · exact pidFrame_trans (refundAndDeleteDeposits_frame pid p.proposalId h s)
          (proposalFinishV1_frame pid _ _ _ h)
  · split
    · exact pidFrame_trans (deleteAndBurnDeposits_frame pid p.proposalId h s)
        (proposalFinishV1_frame pid _ _ _ h)
    · exact pidFrame_trans (refundAndDeleteDeposits_frame pid p.proposalId h s)
        (proposalFinishV1_frame pid _ _ _ h)

theorem activeStepV2_frame (env : GovEnv) (pid : Nat) (s : GovState)
    (p : ProposalV2) (h : p.proposalId ≠ pid) :
    PidFrame pid s (activeStepV2 env s p) := by
  simp only [activeStepV2, reduceIte]
  split
  · split
    · refine pidFrame_trans (deleteAndBurnDeposits_frame pid p.proposalId h s)
        (pidFrame_trans ?_ (proposalFinishV2_frame pid _ _ _ h))
      exact pidFrame_events_store pid _ _ _ (evFilter_modEvents pid _)
    · refine pidFrame_trans (refundAndDeleteDeposits_frame pid p.proposalId h s)
        (pidFrame_trans ?_ (proposalFinishV2_frame pid _ _ _ h))
      exact pidFrame_events_store pid _ _ _ (evFilter_modEvents pid _)
  · split
    · exact pidFrame_trans (deleteAndBurnDeposits_frame pid p.proposalId h s)
        (proposalFinishV2_frame pid _ _ _ h)
    · exact pidFrame_trans (refundAndDeleteDeposits_frame pid p.proposalId h s)
        (proposalFinishV2_frame pid _ _ _ h)

theorem lookupProposal_some_id {s : GovState} {pid : Nat} {p : Proposal}
    (h : lookupProposal s pid = some p) : p.proposalId = pid := by
  have := List.find?_some h
  simpa using this

theorem lookupProposalV2_some_id {s : GovState} {pid : Nat} {p : ProposalV2}
    (h : lookupProposalV2 s pid = some p) : p.proposalId = pid := by
  have := List.find?_some h
  simpa using this

theorem processInactiveV1_frame (pid : Nat) (s : GovState) (e : Nat × Nat)
    (h : e.2 ≠ pid) : PidFrame pid s (processInactiveV1 s e) := by
  unfold processInactiveV1
  cases hl : lookupProposal s e.2 with
  | none => exact pidFrame_refl pid s
  | some p =>
    have hid : p.proposalId = e.2 := lookupProposal_some_id hl
    exact inactiveStep_frame pid p.proposalId (by rw [hid]; exact h) s

theorem processInactiveV2_frame (pid : Nat) (s : GovState) (e : Nat × Nat)
    (h : e.2 ≠ pid) : PidFrame pid s (processInactiveV2 s e) := by
  unfold processInactiveV2
  cases hl : lookupProposalV2 s e.2 with
  | none => exact pidFrame_refl pid s
  | some p =>
    have hid : p.proposalId = e.2 := lookupProposalV2_some_id hl
    exact inactiveStep_frame pid p.proposalId (by rw [hid]; exact h) s

theorem processActiveV1_frame (env : GovEnv) (pid : Nat) (s : GovState)
    (e : Nat × Nat) (h : e.2 ≠ pid) : PidFrame pid s (processActiveV1 env s e) := by
  unfold processActiveV1
  cases hl : lookupProposal s e.2 with
  | none => exact pidFrame_refl pid s
  | some p =>
    have hid : p.proposalId = e.2 := lookupProposal_some_id hl
    exact activeStepV1_frame env pid s p (by rw [hid]; exact h)

theorem processActiveV2_frame (env : GovEnv) (pid : Nat) (s : GovState)
    (e : Nat × Nat) (h : e.2 ≠ pid) : PidFrame pid s (processActiveV2 env s e) := by
  unfold processActiveV2
  cases hl : lookupProposalV2 s e.2 with
  | none => exact pidFrame_refl pid s
  | some p =>
    have hid : p.proposalId = e.2 := lookupProposalV2_some_id hl
    exact activeStepV2_frame env pid s p (by rw [hid]; exact h)

theorem foldl_pidFrame_notin (pid : Nat) (f : GovState → Nat × Nat → GovState)
    (hf : ∀ s e, e.2 ≠ pid → PidFrame pid s (f s e)) :
    ∀ (l : List (Nat × Nat)) (s : GovState), (∀ e ∈ l, e.2 ≠ pid) →
      PidFrame pid s (l.foldl f s) := by
  intro l
  induction l with
  | nil => exact fun s _ => pidFrame_refl pid s
  | cons e t ih =>
    intro s hl
    rw [List.foldl_cons]
    exact pidFrame_trans (hf s e (hl e (List.mem_cons_self e t)))
      (ih _ (fun x hx => hl x (List.mem_cons_of_mem e hx)))

theorem mem_expired_ne (pid : Nat) (q : List (Nat × Nat)) (t : Nat)
    (h : qFilter pid q = []) : ∀ e ∈ expiredEntries q t, e.2 ≠ pid := by
  intro e he
  have hq : e ∈ q := List.mem_of_mem_filter he
  intro hc
  have : e ∈ qFilter pid q := by
    unfold qFilter
    refine List.mem_filter.mpr ⟨hq, by simp [hc]⟩
  rw [h] at this
  exact absurd this (List.not_mem_nil e)

theorem filter_ne_find?_none {α : Type} (f : α → Nat) (pid : Nat) (l : List α) :
    (l.filter (fun a => f a != pid)).find? (fun a => f a == pid) = none := by
  refine List.find?_eq_none.mpr (fun x hx => ?_)
  have hx2 := (List.mem_filter.mp hx).2
  simp only [bne_iff_ne] at hx2
  simp only [beq_iff_eq]
  exact hx2

theorem filter_ne_filter_eq_nil {α : Type} (f : α → Nat) (pid : Nat) (l : List α) :
    (l.filter (fun a => f a != pid)).filter (fun a => f a == pid) = [] := by
  rw [List.filter_filter]
  refine List.filter_eq_nil_iff.mpr (fun a _ => ?_)
  by_cases h : f a = pid <;> simp [h]

theorem find?_map_replace {α : Type} (f : α → Nat) (p : α) (l : List α)
    (hl : l.any (fun q => f q == f p) = true) :
    (l.map (fun q => if f q == f p then p else q)).find?
      (fun q => f q == f p) = some p := by
  induction l with
  | nil => simp at hl
  | cons a t ih =>
    by_cases ha : (f a == f p) = true
    · rw [List.map_cons, if_pos ha, List.find?_cons_of_pos _ (by simp)]
    · rw [List.map_cons, if_neg (by simp [ha]),
        List.find?_cons_of_neg _ (by simp [ha])]
      apply ih
      simpa [List.any_cons, ha] using hl

theorem entries_ne_of_qFilter_nil (pid : Nat) (l : List (Nat × Nat))
    (h : qFilter pid l = []) : ∀ e ∈ l, e.2 ≠ pid := by
  intro e he hc
  have : e ∈ qFilter pid l := by
    unfold qFilter
    exact List.mem_filter.mpr ⟨he, by simp [hc]⟩
  rw [h] at this
  exact absurd this (List.not_mem_nil e)

theorem qFilter_expired_comm (pid : Nat) (q : List (Nat × Nat)) (t : Nat) :
    qFilter pid (expiredEntries q t) =
      (qFilter pid q).filter (fun e => decide (e.1 ≤ t)) := by
  unfold qFilter expiredEntries
  rw [List.filter_filter, List.filter_filter]
  exact List.filter_congr (fun x _ => by
    cases (x.2 == pid) <;> cases (decide (x.1 ≤ t)) <;> rfl)

theorem inactiveDrainV1_frame (pid t : Nat) (s : GovState)
    (h : qFilter pid s.inactiveQueue = []) : PidFrame pid s (inactiveDrainV1 t s) := by
  unfold inactiveDrainV1
  exact foldl_pidFrame_notin pid processInactiveV1
    (fun s e he => processInactiveV1_frame pid s e he) _ s
    (mem_expired_ne pid s.inactiveQueue t h)

theorem inactiveDrainV2_frame (pid t : Nat) (s : GovState)
    (h : qFilter pid s.inactiveQueue = []) : PidFrame pid s (inactiveDrainV2 t s) := by
  unfold inactiveDrainV2
  exact foldl_pidFrame_notin pid processInactiveV2
    (fun s e he => processInactiveV2_frame pid s e he) _ s
    (mem_expired_ne pid s.inactiveQueue t h)

theorem activeDrainV1_frame (env : GovEnv) (pid t : Nat) (s : GovState)
    (h : qFilter pid s.activeQueue = []) : PidFrame pid s (activeDrainV1 env t s) := by
  unfold activeDrainV1
  exact foldl_pidFrame_notin pid (processActiveV1 env)
    (fun s e he => processActiveV1_frame env pid s e he) _ s
    (mem_expired_ne pid s.activeQueue t h)

theorem activeDrainV2_frame (env : GovEnv) (pid t : Nat) (s : GovState)
    (h : qFilter pid s.activeQueue = []) : PidFrame pid s (activeDrainV2 env t s) := by
  unfold activeDrainV2
  exact foldl_pidFrame_notin pid (processActiveV2 env)
    (fun s e he => processActiveV2_frame env pid s e he) _ s
    (mem_expired_ne pid s.activeQueue t h)

theorem depositsOf_congr {pid : Nat} {a b : GovState}
    (h : depFilter pid a.deposits = depFilter pid b.deposits) :
    depositsOf a pid = depositsOf b pid := by
  unfold depositsOf
  unfold depFilter at h
  rw [h]

/-- The observable effects of the inactive-drain body on its own proposal
id: proposal and deposits gone from both stores and both queues, exactly
one burn of the stored deposit total recorded, exactly one Dropped event
and one hook invocation appended. -/
theorem inactiveStep_self (s : GovState) (pid : Nat) :
    lookupProposal (inactiveStep s pid) pid = none ∧
    lookupProposalV2 (inactiveStep s pid) pid = none ∧
    depFilter pid (inactiveStep s pid).deposits = [] ∧
    logFilter pid (inactiveStep s pid).burnLog =
      logFilter pid s.burnLog ++ [(pid, depositsOf s pid)] ∧
    logFilter pid (inactiveStep s pid).refundLog = logFilter pid s.refundLog ∧
    evFilter pid (inactiveStep s pid).events =
      evFilter pid s.events ++ [Event.inactiveProposal pid] ∧
    natFilter pid (inactiveStep s pid).hooksInactive =
      natFilter pid s.hooksInactive ++ [pid] ∧
    natFilter pid (inactiveStep s pid).hooksVotingEnd =
      natFilter pid s.hooksVotingEnd ∧
    qFilter pid (inactiveStep s pid).inactiveQueue = [] ∧
    qFilter pid (inactiveStep s pid).activeQueue = [] := by
  refine ⟨?_, ?_, ?_, ?_, rfl, ?_, ?_, rfl, ?_, ?_⟩
  · exact filter_ne_find?_none (fun p : Proposal => p.proposalId) pid s.proposals
  · exact filter_ne_find?_none (fun p : ProposalV2 => p.proposalId) pid s.proposalsV2
  · exact filter_ne_filter_eq_nil (fun d : Deposit => d.proposalId) pid s.deposits
  · show logFilter pid (s.burnLog ++ [(pid, depositsOf (deleteProposal s pid) pid)]) = _
    unfold logFilter
    rw [List.filter_append]
    simp [deleteProposal, depositsOf]
  · show evFilter pid (s.events ++ [Event.inactiveProposal pid]) = _
    rw [evFilter_append]
    simp [evFilter, eventAbout, List.filter_cons]
  · show natFilter pid (s.hooksInactive ++ [pid]) = _
    unfold natFilter
    rw [List.filter_append]
    simp
  · exact filter_ne_filter_eq_nil (fun e : Nat × Nat => e.2) pid s.inactiveQueue
  · exact filter_ne_filter_eq_nil (fun e : Nat × Nat => e.2) pid s.activeQueue

theorem setProposal_activeQueue (s : GovState) (p : Proposal) :
    (setProposal s p).activeQueue = s.activeQueue := by
  unfold setProposal
  split <;> rfl

theorem setProposal_inactiveQueue (s : GovState) (p : Proposal) :
    (setProposal s p).inactiveQueue = s.inactiveQueue := by
  unfold setProposal
  split <;> rfl

theorem setProposal_events (s : GovState) (p : Proposal) :
    (setProposal s p).events = s.events := by
  unfold setProposal
  split <;> rfl

theorem setProposal_deposits (s : GovState) (p : Proposal) :
    (setProposal s p).deposits = s.deposits := by
  unfold setProposal
  split <;> rfl

theorem setProposal_burnLog (s : GovState) (p : Proposal) :
    (setProposal s p).burnLog = s.burnLog := by
  unfold setProposal
  split <;> rfl

theorem setProposal_refundLog (s : GovState) (p : Proposal) :
    (setProposal s p).refundLog = s.refundLog := by
  unfold setProposal
  split <;> rfl

theorem setProposal_store (s : GovState) (p : Proposal) :
    (setProposal s p).store = s.store := by
  unfold setProposal
  split <;> rfl

theorem setProposal_proposalsV2 (s : GovState) (p : Proposal) :
    (setProposal s p).proposalsV2 = s.proposalsV2 := by
  unfold setProposal
  split <;> rfl

theorem qFilter_remove_self (pid vet : Nat) (q : List (Nat × Nat))
    (h : qFilter pid q = [(vet, pid)]) :
    qFilter pid (q.filter (fun e => !(e.1 == vet && e.2 == pid))) = [] := by
  have hcomm : qFilter pid (q.filter (fun e => !(e.1 == vet && e.2 == pid)))
      = (qFilter pid q).filter (fun e => !(e.1 == vet && e.2 == pid)) := by
    unfold qFilter
    rw [List.filter_filter, List.filter_filter]
    exact List.filter_congr (fun x _ => by
      cases (x.2 == pid) <;> cases (x.1 == vet) <;> rfl)
  rw [hcomm, h]
  simp

theorem lookupProposal_setProposal_self (s : GovState) (p : Proposal) :
    lookupProposal (setProposal s p) p.proposalId = some p := by
  unfold lookupProposal setProposal
  split
  · exact find?_map_replace (fun q : Proposal => q.proposalId) p s.proposals
      (by assumption)
  · rename_i hany
    have hnone : List.find? (fun q : Proposal => q.proposalId == p.proposalId)
        s.proposals = none := by
      refine List.find?_eq_none.mpr (fun x hx hpx => ?_)
      exact hany (List.any_eq_true.mpr ⟨x, hx, hpx⟩)
    rw [List.find?_append, hnone, List.find?_cons_of_pos _ (by simp)]
    rfl

/-- The observable effects of the shared active-drain tail on its own
proposal id: the updated proposal is stored, the queue entry is gone,
exactly one terminal event is appended, and everything else is untouched. -/
theorem proposalFinishV1_self (s2 : GovState) (p2 : Proposal) (tag : String)
    (hq : qFilter p2.proposalId s2.activeQueue = [(p2.votingEndTime, p2.proposalId)]) :
    lookupProposal (proposalFinishV1 s2 p2 tag) p2.proposalId = some p2 ∧
    qFilter p2.proposalId (proposalFinishV1 s2 p2 tag).activeQueue = [] ∧
    evFilter p2.proposalId (proposalFinishV1 s2 p2 tag).events =
      evFilter p2.proposalId s2.events ++ [Event.activeProposal p2.proposalId tag] ∧
    qFilter p2.proposalId (proposalFinishV1 s2 p2 tag).inactiveQueue =
      qFilter p2.proposalId s2.inactiveQueue ∧
    (proposalFinishV1 s2 p2 tag).proposalsV2 = s2.proposalsV2 ∧
    (proposalFinishV1 s2 p2 tag).deposits = s2.deposits ∧
    (proposalFinishV1 s2 p2 tag).burnLog = s2.burnLog ∧
    (proposalFinishV1 s2 p2 tag).refundLog = s2.refundLog ∧
    (proposalFinishV1 s2 p2 tag).store = s2.store := by
  unfold proposalFinishV1 removeFromActiveProposalQueue
  refine ⟨lookupProposal_setProposal_self s2 p2, ?_, ?_, ?_, ?_, ?_, ?_, ?_, ?_⟩
  · show qFilter p2.proposalId
      ((setProposal s2 p2).activeQueue.filter
        (fun e => !(e.1 == p2.votingEndTime && e.2 == p2.proposalId))) = []
    rw [setProposal_activeQueue]
    exact qFilter_remove_self _ _ _ hq
  · show evFilter p2.proposalId
      ((setProposal s2 p2).events ++ [Event.activeProposal p2.proposalId tag]) = _
    rw [setProposal_events, evFilter_append]
    simp [evFilter, eventAbout, List.filter_cons]
  · show qFilter p2.proposalId (setProposal s2 p2).inactiveQueue = _
    rw [setProposal_inactiveQueue]
  · exact setProposal_proposalsV2 s2 p2
  · exact setProposal_deposits s2 p2
  · exact setProposal_burnLog s2 p2
  · exact setProposal_refundLog s2 p2
  · exact setProposal_store s2 p2

theorem activeLeaf_obs (s0 s2 : GovState) (p : Proposal) (st : ProposalStatus)
    (tres : TallyResult)
    (hst : st = ProposalStatus.passed ∨ st = ProposalStatus.rejected ∨
      st = ProposalStatus.failed)
    (hqa : s2.activeQueue = s0.activeQueue)
    (hqi : s2.inactiveQueue = s0.inactiveQueue)
    (hv2 : s2.proposalsV2 = s0.proposalsV2)
    (hev : evFilter p.proposalId s2.events = evFilter p.proposalId s0.events)
    (hq : qFilter p.proposalId s0.activeQueue = [(p.votingEndTime, p.proposalId)]) :
    ∃ stx, (stx = ProposalStatus.passed ∨ stx = ProposalStatus.rejected ∨
        stx = ProposalStatus.failed) ∧
      lookupProposal
          (proposalFinishV1 s2 { p with status := st, finalTallyResult := tres }
            (tagOf st)) p.proposalId =
        some { p with status := stx, finalTallyResult := tres } ∧
      qFilter p.proposalId
        (proposalFinishV1 s2 { p with status := st, finalTallyResult := tres }
          (tagOf st)).activeQueue = [] ∧
      evFilter p.proposalId
        (proposalFinishV1 s2 { p with status := st, finalTallyResult := tres }
          (tagOf st)).events =
        evFilter p.proposalId s0.events ++
          [Event.activeProposal p.proposalId (tagOf stx)] ∧
      qFilter p.proposalId
        (proposalFinishV1 s2 { p with status := st, finalTallyResult := tres }
          (tagOf st)).inactiveQueue = qFilter p.proposalId s0.inactiveQueue ∧
      lookupProposalV2
        (proposalFinishV1 s2 { p with status := st, finalTallyResult := tres }
          (tagOf st)) p.proposalId = lookupProposalV2 s0 p.proposalId := by
  obtain ⟨h1, h2, h3, h4, h5, _, _, _, _⟩ :=
    proposalFinishV1_self s2 { p with status := st, finalTallyResult := tres }
      (tagOf st)
      (by show qFilter p.proposalId s2.activeQueue =
            [(p.votingEndTime, p.proposalId)]
          rw [hqa]
          exact hq)
  refine ⟨st, hst, h1, h2, ?_, ?_, ?_⟩
  · rw [h3, hev]
  · rw [h4]
    show qFilter p.proposalId s2.inactiveQueue = _
    rw [hqi]
  · unfold lookupProposalV2
    rw [show (proposalFinishV1 s2
        { p with status := st, finalTallyResult := tres } (tagOf st)).proposalsV2 =
      s2.proposalsV2 from h5, hv2]

/-- The observable effects of the V1 active-drain body on its own proposal:
the proposal is stored with a terminal status matching the emitted outcome
tag, its queue entry is removed, and exactly one terminal event is
appended. -/
theorem activeStepV1_self (env : GovEnv) (s : GovState) (p : Proposal)
    (hq : qFilter p.proposalId s.activeQueue = [(p.votingEndTime, p.proposalId)]) :
    ∃ st, (st = ProposalStatus.passed ∨ st = ProposalStatus.rejected ∨
        st = ProposalStatus.failed) ∧
      lookupProposal (activeStepV1 env s p) p.proposalId =
        some { p with status := st
                      finalTallyResult := (env.tally p.proposalId).2.2 } ∧
      qFilter p.proposalId (activeStepV1 env s p).activeQueue = [] ∧
      evFilter p.proposalId (activeStepV1 env s p).events =
        evFilter p.proposalId s.events ++
          [Event.activeProposal p.proposalId (tagOf st)] ∧
      qFilter p.proposalId (activeStepV1 env s p).inactiveQueue =
        qFilter p.proposalId s.inactiveQueue ∧
      lookupProposalV2 (activeStepV1 env s p) p.proposalId =
        lookupProposalV2 s p.proposalId := by
  simp only [activeStepV1]
  split
  · split
    · split
      · refine activeLeaf_obs s ?_ p ProposalStatus.passed ?_ (Or.inl rfl)
          ?_ ?_ ?_ ?_ hq
        · rfl
        · rfl
        · rfl
        · dsimp only [deleteAndBurnDeposits]
          rw [evFilter_append, evFilter_modEvents, List.append_nil]
      · refine activeLeaf_obs s ?_ p ProposalStatus.failed ?_ (Or.inr (Or.inr rfl))
          ?_ ?_ ?_ ?_ hq
        · rfl
        · rfl
        · rfl
        · rfl
    · split
      · refine activeLeaf_obs s ?_ p ProposalStatus.passed ?_ (Or.inl rfl)
          ?_ ?_ ?_ ?_ hq
        · rfl
        · rfl
        · rfl
        · dsimp only [refundAndDeleteDeposits]
          rw [evFilter_append, evFilter_modEvents, List.append_nil]
      · refine activeLeaf_obs s ?_ p ProposalStatus.failed ?_ (Or.inr (Or.inr rfl))
          ?_ ?_ ?_ ?_ hq
        · rfl
        · rfl
        · rfl
        · rfl
  · split
    · refine activeLeaf_obs s ?_ p ProposalStatus.rejected ?_ (Or.inr (Or.inl rfl))
        ?_ ?_ ?_ ?_ hq
      · rfl
      · rfl
      · rfl
      · rfl
    · refine activeLeaf_obs s ?_ p ProposalStatus.rejected ?_ (Or.inr (Or.inl rfl))
        ?_ ?_ ?_ ?_ hq
      · rfl
      · rfl
      · rfl
      · rfl

/-- C6: for any proposal in DepositPeriod whose deposit end time is at or
before the block time, one EndBlocker pass deletes the proposal and all of
its deposits, burns exactly its prior total deposit exactly once, emits
exactly one Dropped event, and invokes the proposal-became-inactive hook
exactly once. -/
theorem c6_inactive_drain_drop (env : GovEnv) (t : Nat) (s : GovState)
    (pid : Nat) (p : Proposal)
    (h1 : lookupProposal s pid = some p)
    (h2 : p.status = ProposalStatus.depositPeriod)
    (h3 : p.depositEndTime ≤ t)
    (h4 : qFilter pid s.inactiveQueue = [(p.depositEndTime, pid)])
    (h5 : qFilter pid s.activeQueue = [])
    (h6 : lookupProposalV2 s pid = none)
    (h7 : depositsOf s pid = p.totalDeposit) :
    lookupProposal (endBlocker env t s) pid = none ∧
    lookupProposalV2 (endBlocker env t s) pid = none ∧
    depFilter pid (endBlocker env t s).deposits = [] ∧
    logFilter pid (endBlocker env t s).burnLog =
      logFilter pid s.burnLog ++ [(pid, p.totalDeposit)] ∧
    evFilter pid (endBlocker env t s).events =
      evFilter pid s.events ++ [Event.inactiveProposal pid] ∧
    natFilter pid (endBlocker env t s).hooksInactive =
      natFilter pid s.hooksInactive ++ [pid] := by
  have hid : p.proposalId = pid := lookupProposal_some_id h1
  have hfl : (expiredEntries s.inactiveQueue t).filter (fun e => e.2 == pid) =
      [(p.depositEndTime, pid)] := by
    show qFilter pid (expiredEntries s.inactiveQueue t) = _
    rw [qFilter_expired_comm, h4]
    simp [h3]
  obtain ⟨L1, L2, hl, hL1, hL2⟩ := filter_eq_single_decomp _ _ _ hfl
  have hA : PidFrame pid s (L1.foldl processInactiveV1 s) :=
    foldl_pidFrame_notin pid processInactiveV1
      (fun s e he => processInactiveV1_frame pid s e he) L1 s
      (entries_ne_of_qFilter_nil pid L1 hL1)
  set sA := L1.foldl processInactiveV1 s with hsA
  have hlkA : lookupProposal sA pid = some p := hA.lk1.trans h1
  have hstep : processInactiveV1 sA (p.depositEndTime, pid) =
      inactiveStep sA pid := by
    simp only [processInactiveV1, hlkA, hid]
  obtain ⟨b1, b2, b3, b4, _, b6, b7, _, b9, b10⟩ := inactiveStep_self sA pid
  have hdrain1 : inactiveDrainV1 t s =
      L2.foldl processInactiveV1 (inactiveStep sA pid) := by
    unfold inactiveDrainV1
    rw [hl, List.foldl_append, List.foldl_cons, hstep]
  have hC : PidFrame pid (inactiveStep sA pid)
      (L2.foldl processInactiveV1 (inactiveStep sA pid)) :=
    foldl_pidFrame_notin pid processInactiveV1
      (fun s e he => processInactiveV1_frame pid s e he) L2 _
      (entries_ne_of_qFilter_nil pid L2 hL2)
  set sC := L2.foldl processInactiveV1 (inactiveStep sA pid) with hsC
  have hD : PidFrame pid sC (activeDrainV1 env t sC) :=
    activeDrainV1_frame env pid t sC (hC.qAc.trans b10)
  set sD := activeDrainV1 env t sC with hsD
  have hE : PidFrame pid sD (inactiveDrainV2 t sD) :=
    inactiveDrainV2_frame pid t sD (hD.qIn.trans (hC.qIn.trans b9))
  set sE := inactiveDrainV2 t sD with hsE
  have hF : PidFrame pid sE (activeDrainV2 env t sE) :=
    activeDrainV2_frame env pid t sE
      (hE.qAc.trans (hD.qAc.trans (hC.qAc.trans b10)))
  have hBfin : PidFrame pid (inactiveStep sA pid) (activeDrainV2 env t sE) :=
    pidFrame_trans hC (pidFrame_trans hD (pidFrame_trans hE hF))
  have hfinal : endBlocker env t s = activeDrainV2 env t sE := by
    simp only [endBlocker]
    rw [hdrain1, ← hsD, ← hsE]
  rw [hfinal]
  refine ⟨hBfin.lk1.trans b1, hBfin.lk2.trans b2, hBfin.dep.trans b3, ?_, ?_, ?_⟩
  · rw [hBfin.brn, b4, hA.brn, depositsOf_congr hA.dep, h7]
  · rw [hBfin.evs, b6, hA.evs]
  · rw [hBfin.hkI, b7, hA.hkI]

/-- C7: for any V1 proposal in VotingPeriod whose voting end time is at or
before the block time, one EndBlocker pass leaves it with status Passed,
Rejected or Failed, removes it from the active queue, and emits exactly one
terminal event carrying its id and the outcome tag, even when the payload
execution failed. -/
theorem c7_active_drain_terminal (env : GovEnv) (t : Nat) (s : GovState)
    (pid : Nat) (p : Proposal)
    (h1 : lookupProposal s pid = some p)
    (h2 : p.status = ProposalStatus.votingPeriod)
    (h3 : p.votingEndTime ≤ t)
    (h4 : qFilter pid s.activeQueue = [(p.votingEndTime, pid)])
    (h5 : qFilter pid s.inactiveQueue = [])
    (h6 : lookupProposalV2 s pid = none) :
    ∃ st, (st = ProposalStatus.passed ∨ st = ProposalStatus.rejected ∨
        st = ProposalStatus.failed) ∧
      lookupProposal (endBlocker env t s) pid =
        some { p with status := st
                      finalTallyResult := (env.tally pid).2.2 } ∧
      qFilter pid (endBlocker env t s).activeQueue = [] ∧
      evFilter pid (endBlocker env t s).events =
        evFilter pid s.events ++ [Event.activeProposal pid (tagOf st)] := by
  have hid : p.proposalId = pid := lookupProposal_some_id h1
  subst hid
  have hA1 : PidFrame p.proposalId s (inactiveDrainV1 t s) :=
    inactiveDrainV1_frame p.proposalId t s h5
  set s1 := inactiveDrainV1 t s with hs1
  have hfl : (expiredEntries s1.activeQueue t).filter
      (fun e => e.2 == p.proposalId) = [(p.votingEndTime, p.proposalId)] := by
    show qFilter p.proposalId (expiredEntries s1.activeQueue t) = _
    rw [qFilter_expired_comm, hA1.qAc, h4]
    simp [h3]
  obtain ⟨L1, L2, hl, hL1, hL2⟩ := filter_eq_single_decomp _ _ _ hfl
  have hA : PidFrame p.proposalId s1 (L1.foldl (processActiveV1 env) s1) :=
    foldl_pidFrame_notin p.proposalId (processActiveV1 env)
      (fun s e he => processActiveV1_frame env p.proposalId s e he) L1 s1
      (entries_ne_of_qFilter_nil p.proposalId L1 hL1)
  set sA := L1.foldl (processActiveV1 env) s1 with hsA
  have hlkA : lookupProposal sA p.proposalId = some p :=
    hA.lk1.trans (hA1.lk1.trans h1)
  have hstep : processActiveV1 env sA (p.votingEndTime, p.proposalId) =
      activeStepV1 env sA p := by
    simp only [processActiveV1, hlkA]
  have hqA : qFilter p.proposalId sA.activeQueue =
      [(p.votingEndTime, p.proposalId)] := by
    rw [hA.qAc, hA1.qAc, h4]
  obtain ⟨st, hst, c1, c2, c3, c4, c5⟩ := activeStepV1_self env sA p hqA
  have hC : PidFrame p.proposalId (activeStepV1 env sA p)
      (L2.foldl (processActiveV1 env) (activeStepV1 env sA p)) :=
    foldl_pidFrame_notin p.proposalId (processActiveV1 env)
      (fun s e he => processActiveV1_frame env p.proposalId s e he) L2 _
      (entries_ne_of_qFilter_nil p.proposalId L2 hL2)
  set sC := L2.foldl (processActiveV1 env) (activeStepV1 env sA p) with hsC
  have hdrain2 : activeDrainV1 env t s1 = sC := by
    unfold activeDrainV1
    rw [hl, List.foldl_append, List.foldl_cons, hstep, hsC]
  have hD : PidFrame p.proposalId sC (inactiveDrainV2 t sC) :=
    inactiveDrainV2_frame p.proposalId t sC
      (hC.qIn.trans (c4.trans (hA.qIn.trans (hA1.qIn.trans h5))))
  set sD := inactiveDrainV2 t sC with hsD
  have hE : PidFrame p.proposalId sD (activeDrainV2 env t sD) :=
    activeDrainV2_frame env p.proposalId t sD (hD.qAc.trans (hC.qAc.trans c2))
  have hBfin : PidFrame p.proposalId (activeStepV1 env sA p)
      (activeDrainV2 env t sD) :=
    pidFrame_trans hC (pidFrame_trans hD hE)
  have hfinal : endBlocker env t s = activeDrainV2 env t sD := by
    simp only [endBlocker]
    rw [← hs1, hdrain2, ← hsD]
  rw [hfinal]
  refine ⟨st, hst, hBfin.lk1.trans c1, hBfin.qAc.trans c2, ?_⟩
  rw [hBfin.evs, c3, hA.evs, hA1.evs]

theorem proposalFinishV1_store (s2 : GovState) (p2 : Proposal) (tag : String) :
    (proposalFinishV1 s2 p2 tag).store = s2.store := by
  simp only [proposalFinishV1, removeFromActiveProposalQueue]
  rw [setProposal_store]

theorem proposalFinishV1_events (s2 : GovState) (p2 : Proposal) (tag : String) :
    (proposalFinishV1 s2 p2 tag).events =
      s2.events ++ [Event.activeProposal p2.proposalId tag] := by
  simp only [proposalFinishV1, removeFromActiveProposalQueue]
  rw [setProposal_events]

theorem proposalFinishV1_deposits (s2 : GovState) (p2 : Proposal) (tag : String) :
    (proposalFinishV1 s2 p2 tag).deposits = s2.deposits := by
  simp only [proposalFinishV1, removeFromActiveProposalQueue]
  rw [setProposal_deposits]

theorem proposalFinishV1_burnLog (s2 : GovState) (p2 : Proposal) (tag : String) :
    (proposalFinishV1 s2 p2 tag).burnLog = s2.burnLog := by
  simp only [proposalFinishV1, removeFromActiveProposalQueue]
  rw [setProposal_burnLog]

theorem proposalFinishV1_refundLog (s2 : GovState) (p2 : Proposal) (tag : String) :
    (proposalFinishV1 s2 p2 tag).refundLog = s2.refundLog := by
  simp only [proposalFinishV1, removeFromActiveProposalQueue]
  rw [setProposal_refundLog]

theorem proposalFinishV1_lookup (s2 : GovState) (p2 : Proposal) (tag : String) :
    lookupProposal (proposalFinishV1 s2 p2 tag) p2.proposalId = some p2 := by
  unfold proposalFinishV1 removeFromActiveProposalQueue
  exact lookupProposal_setProposal_self s2 p2

/-- C4: in the V1 active-queue drain, when the tally passes, the payload
handler runs in an isolated scope: on success its writes become the base
store and its events are appended to the base event log before the terminal
event; on failure the base store is byte-for-byte unchanged and no event
from the scope survives — only the driver's own terminal event is
appended. -/
theorem c4_scope_commit_discard (env : GovEnv) (s : GovState) (p : Proposal)
    (hpass : (env.tally p.proposalId).1 = true) :
    ((env.getRoute p.proposalRoute s.store).2.2 = none →
      (activeStepV1 env s p).store = (env.getRoute p.proposalRoute s.store).1 ∧
      (activeStepV1 env s p).events =
        s.events ++
          (env.getRoute p.proposalRoute s.store).2.1.map Event.modEvent ++
          [Event.activeProposal p.proposalId "proposal_passed"]) ∧
    (∀ e, (env.getRoute p.proposalRoute s.store).2.2 = some e →
      (activeStepV1 env s p).store = s.store ∧
      (activeStepV1 env s p).events =
        s.events ++ [Event.activeProposal p.proposalId "proposal_failed"]) := by
  constructor
  · intro herr
    simp only [activeStepV1]
    split
    · split
      · split
        · exact ⟨proposalFinishV1_store _ _ _, proposalFinishV1_events _ _ _⟩
        · rename_i hcond
          exact absurd herr hcond
      · split
        · exact ⟨proposalFinishV1_store _ _ _, proposalFinishV1_events _ _ _⟩
        · rename_i hcond
          exact absurd herr hcond
    · rename_i hcond
      exact absurd hpass hcond
  · intro e herr
    simp only [activeStepV1]
    split
    · split
      · split
        · rename_i hcond
          exact absurd (herr.symm.trans hcond) (by simp)
        · exact ⟨proposalFinishV1_store _ _ _, proposalFinishV1_events _ _ _⟩
      · split
        · rename_i hcond
          exact absurd (herr.symm.trans hcond) (by simp)
        · exact ⟨proposalFinishV1_store _ _ _, proposalFinishV1_events _ _ _⟩
    · rename_i hcond
      exact absurd hpass hcond

/-- C5: in the V1 active-queue drain, when the tally passes but the payload
handler fails, the proposal is stored with status Failed and the tally
result, its deposits are deleted, and the burn or refund chosen by the
tally outcome has been applied and is not rolled back by the execution
failure. -/
theorem c5_failed_execution_keeps_deposit_outcome (env : GovEnv) (s : GovState)
    (p : Proposal)
    (hpass : (env.tally p.proposalId).1 = true)
    (e : String) (herr : (env.getRoute p.proposalRoute s.store).2.2 = some e) :
    lookupProposal (activeStepV1 env s p) p.proposalId =
      some { p with status := ProposalStatus.failed
                    finalTallyResult := (env.tally p.proposalId).2.2 } ∧
    depFilter p.proposalId (activeStepV1 env s p).deposits = [] ∧
    ((env.tally p.proposalId).2.1 = true →
      (activeStepV1 env s p).burnLog =
        s.burnLog ++ [(p.proposalId, depositsOf s p.proposalId)]) ∧
    ((env.tally p.proposalId).2.1 = false →
      (activeStepV1 env s p).refundLog =
        s.refundLog ++ [(p.proposalId, depositsOf s p.proposalId)]) := by
  simp only [activeStepV1]
  split
  · split
    · split
      · rename_i hcond
        exact absurd (herr.symm.trans hcond) (by simp)
      · rename_i hburn _
        refine ⟨proposalFinishV1_lookup _ _ _, ?_, fun _ => ?_, fun hb => ?_⟩
        · rw [proposalFinishV1_deposits]
          exact filter_ne_filter_eq_nil (fun d : Deposit => d.proposalId)
            p.proposalId s.deposits
        · exact proposalFinishV1_burnLog _ _ _
        · exact absurd hburn (by simp [hb])
    · split
      · rename_i hcond
        exact absurd (herr.symm.trans hcond) (by simp)
      · rename_i hburn _
        refine ⟨proposalFinishV1_lookup _ _ _, ?_, fun hb => ?_, fun _ => ?_⟩
        · rw [proposalFinishV1_deposits]
          exact filter_ne_filter_eq_nil (fun d : Deposit => d.proposalId)
            p.proposalId s.deposits
        · exact absurd hb hburn
        · exact proposalFinishV1_refundLog _ _ _
  · rename_i hcond
    exact absurd hpass hcond

/-- C8: snapshot import aborts startup with an error (modelling the Go
panic) whenever the governance module account is missing or the sum of the
imported deposits differs from the module account balance; no `ok` result
exists on these paths. -/
theorem c8_genesis_invariant_aborts (env : BankEnv) (g : GenesisState)
    (s0 : GovState)
    (h : env.moduleAccount = none ∨
      ∀ acc, env.moduleAccount = some acc →
        env.balanceOf acc ≠ depositTotal g.deposits) :
    ∃ m, initGenesis env g s0 = Except.error m := by
  unfold initGenesis
  rcases h with h | h
  · rw [h]
    exact ⟨_, rfl⟩
  · cases hacc : env.moduleAccount with
    | none => exact ⟨_, rfl⟩
    | some acc =>
      have hne := h acc hacc
      dsimp only
      rw [if_neg hne]
      exact ⟨_, rfl⟩

theorem insertInactive_qIn_other (s : GovState) (pid pid' te : Nat)
    (h : pid' ≠ pid) :
    qFilter pid (insertInactiveProposalQueue s pid' te).inactiveQueue =
      qFilter pid s.inactiveQueue := by
  unfold insertInactiveProposalQueue
  split
  · rfl
  · show qFilter pid (s.inactiveQueue ++ [(te, pid')]) = _
    unfold qFilter
    rw [List.filter_append]
    simp [h]

theorem insertInactive_activeQueue (s : GovState) (pid' te : Nat) :
    (insertInactiveProposalQueue s pid' te).activeQueue = s.activeQueue := by
  unfold insertInactiveProposalQueue
  split <;> rfl

theorem insertActive_qAc_other (s : GovState) (pid pid' te : Nat)
    (h : pid' ≠ pid) :
    qFilter pid (insertActiveProposalQueue s pid' te).activeQueue =
      qFilter pid s.activeQueue := by
  unfold insertActiveProposalQueue
  split
  · rfl
  · show qFilter pid (s.activeQueue ++ [(te, pid')]) = _
    unfold qFilter
    rw [List.filter_append]
    simp [h]

theorem insertActive_inactiveQueue (s : GovState) (pid' te : Nat) :
    (insertActiveProposalQueue s pid' te).inactiveQueue = s.inactiveQueue := by
  unfold insertActiveProposalQueue
  split <;> rfl

theorem insertInactive_qIn_self (s : GovState) (pid te : Nat)
    (h : qFilter pid s.inactiveQueue = []) :
    qFilter pid (insertInactiveProposalQueue s pid te).inactiveQueue =
      [(te, pid)] := by
  unfold insertInactiveProposalQueue
  split
  · rename_i hc
    exfalso
    have hmem : (te, pid) ∈ s.inactiveQueue := by simpa using hc
    have hmf : (te, pid) ∈ qFilter pid s.inactiveQueue :=
      List.mem_filter.mpr ⟨hmem, by simp⟩
    rw [h] at hmf
    exact absurd hmf (List.not_mem_nil _)
  · show qFilter pid (s.inactiveQueue ++ [(te, pid)]) = _
    unfold qFilter at h ⊢
    rw [List.filter_append, h]
    simp

theorem insertActive_qAc_self (s : GovState) (pid te : Nat)
    (h : qFilter pid s.activeQueue = []) :
    qFilter pid (insertActiveProposalQueue s pid te).activeQueue =
      [(te, pid)] := by
  unfold insertActiveProposalQueue
  split
  · rename_i hc
    exfalso
    have hmem : (te, pid) ∈ s.activeQueue := by simpa using hc
    have hmf : (te, pid) ∈ qFilter pid s.activeQueue :=
      List.mem_filter.mpr ⟨hmem, by simp⟩
    rw [h] at hmf
    exact absurd hmf (List.not_mem_nil _)
  · show qFilter pid (s.activeQueue ++ [(te, pid)]) = _
    unfold qFilter at h ⊢
    rw [List.filter_append, h]
    simp

theorem setProposalV2_activeQueue (s : GovState) (p : ProposalV2) :
    (setProposalV2 s p).activeQueue = s.activeQueue := by
  unfold setProposalV2
  split <;> rfl

theorem setProposalV2_inactiveQueue (s : GovState) (p : ProposalV2) :
    (setProposalV2 s p).inactiveQueue = s.inactiveQueue := by
  unfold setProposalV2
  split <;> rfl


theorem queuedRight_congr (s s' : GovState) (pid det vet : Nat)
    (st : ProposalStatus)
    (hin : qFilter pid s'.inactiveQueue = qFilter pid s.inactiveQueue)
    (hac : qFilter pid s'.activeQueue = qFilter pid s.activeQueue)
    (h : QueuedRight s pid det vet st) : QueuedRight s' pid det vet st := by
  obtain ⟨h1, h2, h3⟩ := h
  refine ⟨fun hst => ?_, fun hst => ?_, fun hst1 hst2 => ?_⟩
  · exact ⟨hin.trans (h1 hst).1, hac.trans (h1 hst).2⟩
  · exact ⟨hac.trans (h2 hst).1, hin.trans (h2 hst).2⟩
  · exact ⟨hin.trans (h3 hst1 hst2).1, hac.trans (h3 hst1 hst2).2⟩

theorem genesisStepV1_queues_other (s : GovState) (p : Proposal) (pid : Nat)
    (h : p.proposalId ≠ pid) :
    qFilter pid (genesisStepV1 s p).inactiveQueue =
      qFilter pid s.inactiveQueue ∧
    qFilter pid (genesisStepV1 s p).activeQueue =
      qFilter pid s.activeQueue := by
  unfold genesisStepV1
  split
  · rw [setProposal_inactiveQueue, setProposal_activeQueue,
      insertInactive_activeQueue]
    exact ⟨insertInactive_qIn_other s pid p.proposalId p.depositEndTime h, rfl⟩
  · rw [setProposal_inactiveQueue, setProposal_activeQueue,
      insertActive_inactiveQueue]
    exact ⟨rfl, insertActive_qAc_other s pid p.proposalId p.votingEndTime h⟩
  · rw [setProposal_inactiveQueue, setProposal_activeQueue]
    exact ⟨rfl, rfl⟩

theorem genesisStepV2_queues_other (s : GovState) (p : ProposalV2) (pid : Nat)
    (h : p.proposalId ≠ pid) :
    qFilter pid (genesisStepV2 s p).inactiveQueue =
      qFilter pid s.inactiveQueue ∧
    qFilter pid (genesisStepV2 s p).activeQueue =
      qFilter pid s.activeQueue := by
  unfold genesisStepV2
  split
  · rw [setProposalV2_inactiveQueue, setProposalV2_activeQueue,
      insertInactive_activeQueue]
    exact ⟨insertInactive_qIn_other s pid p.proposalId p.depositEndTime h, rfl⟩
  · rw [setProposalV2_inactiveQueue, setProposalV2_activeQueue,
      insertActive_inactiveQueue]
    exact ⟨rfl, insertActive_qAc_other s pid p.proposalId p.votingEndTime h⟩
  · rw [setProposalV2_inactiveQueue, setProposalV2_activeQueue]
    exact ⟨rfl, rfl⟩

theorem genesisStepV1_queues_self (s : GovState) (p : Proposal)
    (hin : qFilter p.proposalId s.inactiveQueue = [])
    (hac : qFilter p.proposalId s.activeQueue = []) :
    QueuedRight (genesisStepV1 s p) p.proposalId p.depositEndTime
      p.votingEndTime p.status := by
  cases hst : p.status with
  | depositPeriod =>
    refine ⟨fun _ => ⟨?_, ?_⟩, fun hv => absurd hv (by decide),
      fun hd _ => absurd rfl hd⟩
    · simp only [genesisStepV1, hst]
      rw [setProposal_inactiveQueue]
      exact insertInactive_qIn_self s p.proposalId p.depositEndTime hin
    · simp only [genesisStepV1, hst]
      rw [setProposal_activeQueue, insertInactive_activeQueue]
      exact hac
  | votingPeriod =>
    refine ⟨fun hd => absurd hd (by decide), fun _ => ⟨?_, ?_⟩,
      fun _ hv => absurd rfl hv⟩
    · simp only [genesisStepV1, hst]
      rw [setProposal_activeQueue]
      exact insertActive_qAc_self s p.proposalId p.votingEndTime hac
    · simp only [genesisStepV1, hst]
      rw [setProposal_inactiveQueue, insertActive_inactiveQueue]
      exact hin
  | passed =>
    refine ⟨fun hd => absurd hd (by decide), fun hv => absurd hv (by decide),
      fun _ _ => ⟨?_, ?_⟩⟩
    · simp only [genesisStepV1, hst]
      rw [setProposal_inactiveQueue]
      exact hin
    · simp only [genesisStepV1, hst]
      rw [setProposal_activeQueue]
      exact hac
  | rejected =>
    refine ⟨fun hd => absurd hd (by decide), fun hv => absurd hv (by decide),
      fun _ _ => ⟨?_, ?_⟩⟩
    · simp only [genesisStepV1, hst]
      rw [setProposal_inactiveQueue]
      exact hin
    · simp only [genesisStepV1, hst]
      rw [setProposal_activeQueue]
      exact hac
  | failed =>
    refine ⟨fun hd => absurd hd (by decide), fun hv => absurd hv (by decide),
      fun _ _ => ⟨?_, ?_⟩⟩
    · simp only [genesisStepV1, hst]
      rw [setProposal_inactiveQueue]
      exact hin
    · simp only [genesisStepV1, hst]
      rw [setProposal_activeQueue]
      exact hac
  | dropped =>
    refine ⟨fun hd => absurd hd (by decide), fun hv => absurd hv (by decide),
      fun _ _ => ⟨?_, ?_⟩⟩
    · simp only [genesisStepV1, hst]
      rw [setProposal_inactiveQueue]
      exact hin
    · simp only [genesisStepV1, hst]
      rw [setProposal_activeQueue]
      exact hac

theorem genesisStepV2_queues_self (s : GovState) (p : ProposalV2)
    (hin : qFilter p.proposalId s.inactiveQueue = [])
    (hac : qFilter p.proposalId s.activeQueue = []) :
    QueuedRight (genesisStepV2 s p) p.proposalId p.depositEndTime
      p.votingEndTime p.status := by
  cases hst : p.status with
  | depositPeriod =>
    refine ⟨fun _ => ⟨?_, ?_⟩, fun hv => absurd hv (by decide),
      fun hd _ => absurd rfl hd⟩
    · simp only [genesisStepV2, hst]
      rw [setProposalV2_inactiveQueue]
      exact insertInactive_qIn_self s p.proposalId p.depositEndTime hin
    · simp only [genesisStepV2, hst]
      rw [setProposalV2_activeQueue, insertInactive_activeQueue]
      exact hac
  | votingPeriod =>
    refine ⟨fun hd => absurd hd (by decide), fun _ => ⟨?_, ?_⟩,
      fun _ hv => absurd rfl hv⟩
    · simp only [genesisStepV2, hst]
      rw [setProposalV2_activeQueue]
      exact insertActive_qAc_self s p.proposalId p.votingEndTime hac
    · simp only [genesisStepV2, hst]
      rw [setProposalV2_inactiveQueue, insertActive_inactiveQueue]
      exact hin
  | passed =>
    refine ⟨fun hd => absurd hd (by decide), fun hv => absurd hv (by decide),
      fun _ _ => ⟨?_, ?_⟩⟩
    · simp only [genesisStepV2, hst]
      rw [setProposalV2_inactiveQueue]
      exact hin
    · simp only [genesisStepV2, hst]
      rw [setProposalV2_activeQueue]
      exact hac
  | rejected =>
    refine ⟨fun hd => absurd hd (by decide), fun hv => absurd hv (by decide),
      fun _ _ => ⟨?_, ?_⟩⟩
    · simp only [genesisStepV2, hst]
      rw [setProposalV2_inactiveQueue]
      exact hin
    · simp only [genesisStepV2, hst]
      rw [setProposalV2_activeQueue]
      exact hac
  | failed =>
    refine ⟨fun hd => absurd hd (by decide), fun hv => absurd hv (by decide),
      fun _ _ => ⟨?_, ?_⟩⟩
    · simp only [genesisStepV2, hst]
      rw [setProposalV2_inactiveQueue]
      exact hin
    · simp only [genesisStepV2, hst]
      rw [setProposalV2_activeQueue]
      exact hac
  | dropped =>
    refine ⟨fun hd => absurd hd (by decide), fun hv => absurd hv (by decide),
      fun _ _ => ⟨?_, ?_⟩⟩
    · simp only [genesisStepV2, hst]
      rw [setProposalV2_inactiveQueue]
      exact hin
    · simp only [genesisStepV2, hst]
      rw [setProposalV2_activeQueue]
      exact hac

theorem genesisFoldV1_other (pid : Nat) :
    ∀ (l : List Proposal) (s : GovState), (∀ q ∈ l, q.proposalId ≠ pid) →
      qFilter pid (l.foldl genesisStepV1 s).inactiveQueue =
        qFilter pid s.inactiveQueue ∧
      qFilter pid (l.foldl genesisStepV1 s).activeQueue =
        qFilter pid s.activeQueue := by
  intro l
  induction l with
  | nil => exact fun s _ => ⟨rfl, rfl⟩
  | cons a tl ih =>
    intro s hl
    rw [List.foldl_cons]
    obtain ⟨i1, i2⟩ :=
      ih (genesisStepV1 s a) (fun q hq => hl q (List.mem_cons_of_mem a hq))
    obtain ⟨j1, j2⟩ :=
      genesisStepV1_queues_other s a pid (hl a (List.mem_cons_self a tl))
    exact ⟨i1.trans j1, i2.trans j2⟩

theorem genesisFoldV2_other (pid : Nat) :
    ∀ (l : List ProposalV2) (s : GovState), (∀ q ∈ l, q.proposalId ≠ pid) →
      qFilter pid (l.foldl genesisStepV2 s).inactiveQueue =
        qFilter pid s.inactiveQueue ∧
      qFilter pid (l.foldl genesisStepV2 s).activeQueue =
        qFilter pid s.activeQueue := by
  intro l
  induction l with
  | nil => exact fun s _ => ⟨rfl, rfl⟩
  | cons a tl ih =>
    intro s hl
    rw [List.foldl_cons]
    obtain ⟨i1, i2⟩ :=
      ih (genesisStepV2 s a) (fun q hq => hl q (List.mem_cons_of_mem a hq))
    obtain ⟨j1, j2⟩ :=
      genesisStepV2_queues_other s a pid (hl a (List.mem_cons_self a tl))
    exact ⟨i1.trans j1, i2.trans j2⟩

theorem genesisFoldV1_hit (pid : Nat) :
    ∀ (l : List Proposal) (p : Proposal), p ∈ l → p.proposalId = pid →
      (l.map (fun q => q.proposalId)).Nodup →
      ∀ s : GovState, qFilter pid s.inactiveQueue = [] →
        qFilter pid s.activeQueue = [] →
        QueuedRight (l.foldl genesisStepV1 s) pid p.depositEndTime
          p.votingEndTime p.status := by
  intro l
  induction l with
  | nil => exact fun p hp => absurd hp (List.not_mem_nil p)
  | cons a tl ih =>
    intro p hp hpid hnodup s hin hac
    simp only [List.map_cons] at hnodup
    obtain ⟨hhead, htail⟩ := List.nodup_cons.mp hnodup
    rw [List.foldl_cons]
    rcases List.mem_cons.mp hp with rfl | hp2
    · have hq0 := genesisStepV1_queues_self s p
        (by rw [hpid]; exact hin) (by rw [hpid]; exact hac)
      have hq : QueuedRight (genesisStepV1 s p) pid p.depositEndTime
          p.votingEndTime p.status := by
        rw [← hpid]
        exact hq0
      have hne : ∀ q ∈ tl, q.proposalId ≠ pid := by
        intro q hq2 hc
        exact hhead ((hc.trans hpid.symm) ▸
          List.mem_map_of_mem (fun r => r.proposalId) hq2)
      obtain ⟨i1, i2⟩ := genesisFoldV1_other pid tl (genesisStepV1 s p) hne
      exact queuedRight_congr _ _ _ _ _ _ i1 i2 hq
    · have hane : a.proposalId ≠ pid := by
        intro hc
        exact hhead ((hpid.trans hc.symm) ▸
          List.mem_map_of_mem (fun r => r.proposalId) hp2)
      obtain ⟨j1, j2⟩ := genesisStepV1_queues_other s a pid hane
      exact ih p hp2 hpid htail (genesisStepV1 s a)
        (j1.trans hin) (j2.trans hac)

theorem genesisFoldV2_hit (pid : Nat) :
    ∀ (l : List ProposalV2) (p : ProposalV2), p ∈ l → p.proposalId = pid →
      (l.map (fun q => q.proposalId)).Nodup →
      ∀ s : GovState, qFilter pid s.inactiveQueue = [] →
        qFilter pid s.activeQueue = [] →
        QueuedRight (l.foldl genesisStepV2 s) pid p.depositEndTime
          p.votingEndTime p.status := by
  intro l
  induction l with
  | nil => exact fun p hp => absurd hp (List.not_mem_nil p)
  | cons a tl ih =>
    intro p hp hpid hnodup s hin hac
    simp only [List.map_cons] at hnodup
    obtain ⟨hhead, htail⟩ := List.nodup_cons.mp hnodup
    rw [List.foldl_cons]
    rcases List.mem_cons.mp hp with rfl | hp2
    · have hq0 := genesisStepV2_queues_self s p
        (by rw [hpid]; exact hin) (by rw [hpid]; exact hac)
      have hq : QueuedRight (genesisStepV2 s p) pid p.depositEndTime
          p.votingEndTime p.status := by
        rw [← hpid]
        exact hq0
      have hne : ∀ q ∈ tl, q.proposalId ≠ pid := by
        intro q hq2 hc
        exact hhead ((hc.trans hpid.symm) ▸
          List.mem_map_of_mem (fun r => r.proposalId) hq2)
      obtain ⟨i1, i2⟩ := genesisFoldV2_other pid tl (genesisStepV2 s p) hne
      exact queuedRight_congr _ _ _ _ _ _ i1 i2 hq
    · have hane : a.proposalId ≠ pid := by
        intro hc
        exact hhead ((hpid.trans hc.symm) ▸
          List.mem_map_of_mem (fun r => r.proposalId) hp2)
      obtain ⟨j1, j2⟩ := genesisStepV2_queues_other s a pid hane
      exact ih p hp2 hpid htail (genesisStepV2 s a)
        (j1.trans hin) (j2.trans hac)

/-- C9: snapshot import derives queue membership only from each proposal's
status field: after InitGenesis from the empty state with distinct proposal
ids, every imported V1 or V2 proposal in DepositPeriod sits exactly once in
the inactive queue keyed by its deposit end time and nowhere in the active
queue, every one in VotingPeriod sits exactly once in the active queue
keyed by its voting end time and nowhere in the inactive queue, and every
one with a terminal status sits in neither queue. -/
theorem c9_genesis_queue_membership (env : BankEnv) (g : GenesisState)
    (s : GovState)
    (hok : initGenesis env g emptyGov = Except.ok s)
    (hnodup : ((g.proposals.map fun q => q.proposalId) ++
      (g.proposalsV2.map fun q => q.proposalId)).Nodup) :
    (∀ p ∈ g.proposals,
      QueuedRight s p.proposalId p.depositEndTime p.votingEndTime p.status) ∧
    (∀ p ∈ g.proposalsV2,
      QueuedRight s p.proposalId p.depositEndTime p.votingEndTime p.status) := by
  obtain ⟨hn1, hn2, hdisj⟩ := List.nodup_append.mp hnodup
  unfold initGenesis at hok
  cases hacc : env.moduleAccount with
  | none =>
    rw [hacc] at hok
    exact absurd hok (by simp)
  | some acc =>
    rw [hacc] at hok
    dsimp only at hok
    by_cases hbal : env.balanceOf acc = depositTotal g.deposits
    · rw [if_pos hbal, Except.ok.injEq] at hok
      subst hok
      set BASE : GovState :=
        { emptyGov with
            nextProposalId := g.startingProposalId
            depositParams := g.depositParams
            votingParams := g.votingParams
            tallyParams := g.tallyParams
            deposits := emptyGov.deposits ++ g.deposits
            votes := emptyGov.votes ++ g.votes } with hBASE
      refine ⟨fun p hp => ?_, fun p hp => ?_⟩
      · have hne2 : ∀ q ∈ g.proposalsV2, q.proposalId ≠ p.proposalId := by
          intro q hq hc
          exact (List.disjoint_left.mp hdisj
              (List.mem_map_of_mem (fun r => r.proposalId) hp))
            (hc ▸ List.mem_map_of_mem (fun r => r.proposalId) hq)
        have hit := genesisFoldV1_hit p.proposalId g.proposals p hp rfl hn1
          BASE rfl rfl
        obtain ⟨i1, i2⟩ := genesisFoldV2_other p.proposalId g.proposalsV2
          (g.proposals.foldl genesisStepV1 BASE) hne2
        have hmain : QueuedRight
            (g.proposalsV2.foldl genesisStepV2
              (g.proposals.foldl genesisStepV1 BASE))
            p.proposalId p.depositEndTime p.votingEndTime p.status :=
          queuedRight_congr _ _ _ _ _ _ i1 i2 hit
        exact queuedRight_congr _ _ _ _ _ _ (by split <;> rfl)
          (by split <;> rfl) hmain
      · have hne1 : ∀ q ∈ g.proposals, q.proposalId ≠ p.proposalId := by
          intro q hq hc
          exact (List.disjoint_left.mp hdisj
              (List.mem_map_of_mem (fun r => r.proposalId) hq))
            (hc.symm ▸ List.mem_map_of_mem (fun r => r.proposalId) hp)
        obtain ⟨k1, k2⟩ := genesisFoldV1_other p.proposalId g.proposals
          BASE hne1
        have hit := genesisFoldV2_hit p.proposalId g.proposalsV2 p hp rfl hn2
          (g.proposals.foldl genesisStepV1 BASE)
          (k1.trans (by rfl)) (k2.trans (by rfl))
        exact queuedRight_congr _ _ _ _ _ _ (by split <;> rfl)
          (by split <;> rfl) hit
    · rw [if_neg hbal] at hok
      exact absurd hok (by simp)

/-- C10: the SlashEvent deferred-action handler never applies a slash: when
the staking lookup finds a validator at the recorded address the handler
returns ErrBadValidatorAddr, and when it finds none the nil interface is
dereferenced and the handler panics before any Slash call, so no input ever
produces an ok outcome carrying a slash call. -/
theorem c10_slash_event_never_slashes (sk : StakingEnv) (h : Int)
    (msg : SlashEvent) :
    ((∃ v, sk.validator msg.address = some v) →
      executeQueuedSlashEvent sk h msg =
        ExecOutcome.errored SlashErr.badValidatorAddr) ∧
    (sk.validator msg.address = none →
      executeQueuedSlashEvent sk h msg =
        ExecOutcome.panicked "nil validator dereference") ∧
    (∀ c, executeQueuedSlashEvent sk h msg ≠ ExecOutcome.ok c) := by
  unfold executeQueuedSlashEvent
  refine ⟨fun ⟨v, hv⟩ => by rw [hv], fun hv => by rw [hv], fun c => ?_⟩
  cases hv : sk.validator msg.address <;> simp

theorem c10_slash_event_never_slashes_witness :
    executeQueuedSlashEvent skC10 9 msgC10 =
      ExecOutcome.errored SlashErr.badValidatorAddr :=
  (c10_slash_event_never_slashes skC10 9 msgC10).1 ⟨⟨"c"⟩, rfl⟩

/-- C2: evaluation of the code at an input where the claim demands a slash.
With a validator registered at the recorded address the handler returns
ErrBadValidatorAddr instead of applying the slash the spec describes
(distribution height = current height − validatorUpdateDelay − 1 with the
recorded fraction, shown alongside as the spec-side reading). -/
theorem c2_slash_event_errors_on_found_validator :
    executeQueuedSlashEvent skC2 100 msgC2 =
      ExecOutcome.errored SlashErr.badValidatorAddr ∧
    slashEventSpecCall 100 ⟨"consaddr1"⟩ msgC2 =
      { consAddr := "consaddr1", distributionHeight := 98
        power := 5, fraction := ⟨5⟩ } := by
  constructor
  · rfl
  · show SlashCall.mk "consaddr1" (100 - validatorUpdateDelay - 1) 5 ⟨5⟩ = _
    norm_num [validatorUpdateDelay]

/-- C3: evaluation of the code at a failing input. Processing a SlashEvent
whose validator lookup finds nothing panics on the nil dereference before
the DeleteByKey on line 74, so the drain aborts and the action is never
removed from the queue, contrary to the deletion-regardless-of-outcome
discipline the claim states. -/
theorem c3_slash_event_panic_leaves_action_queued :
    executeEpoch envC3 10 stateC3 =
      EpochRun.panicked stateC3 "nil validator dereference" ∧
    stateC3.queue.length = 1 := ⟨rfl, rfl⟩

/-- C1: evaluation of the V2 active-queue drain at the claim's own test
scenario, a passed 3-message payload whose second message fails. Because
line 170 shadows the outer err of line 164, the drain marks the proposal
Passed, commits the partial writes of messages 1 and 2 to the base store,
and emits the passed tag; no Failed status and no failing index are
recorded, contrary to the claim. -/
theorem c1_v2_shadowed_err_commits_partial_writes :
    lookupProposalV2 (endBlocker envC1 10 stateC1) 7 =
      some { proposalC1 with status := ProposalStatus.passed
                             finalTallyResult := ⟨1, 0, 0, 0⟩ } ∧
    (endBlocker envC1 10 stateC1).store = [("k1", "v1"), ("k2", "v2")] ∧
    (endBlocker envC1 10 stateC1).events =
      [Event.activeProposal 7 "proposal_passed"] ∧
    msgLoopGo envC1.msgHandler stateC1.store [] 0 proposalC1.messages =
      ([("k1", "v1"), ("k2", "v2")], [], 1, some "boom") := by
  refine ⟨rfl, rfl, rfl, rfl⟩

theorem c4_witness :
    (activeStepV1 envC4 stateC4 proposalC4).store = [] ∧
    (activeStepV1 envC4 stateC4 proposalC4).events =
      [Event.activeProposal 3 "proposal_failed"] :=
  (c4_scope_commit_discard envC4 stateC4 proposalC4 rfl).2 "fail" rfl

theorem c5_witness :
    lookupProposal (activeStepV1 envC4 stateC4 proposalC4) 3 =
      some { proposalC4 with status := ProposalStatus.failed
                             finalTallyResult := ⟨2, 0, 1, 0⟩ } ∧
    depFilter 3 (activeStepV1 envC4 stateC4 proposalC4).deposits = [] ∧
    (activeStepV1 envC4 stateC4 proposalC4).refundLog = [(3, 4)] := by
  obtain ⟨w1, w2, _, w4⟩ :=
    c5_failed_execution_keeps_deposit_outcome envC4 stateC4 proposalC4 rfl
      "fail" rfl
  exact ⟨w1, w2, w4 rfl⟩

theorem c6_witness :
    lookupProposal (endBlocker envW 5 stateC6) 1 = none ∧
    lookupProposalV2 (endBlocker envW 5 stateC6) 1 = none ∧
    depFilter 1 (endBlocker envW 5 stateC6).deposits = [] ∧
    logFilter 1 (endBlocker envW 5 stateC6).burnLog = [(1, 10)] ∧
    evFilter 1 (endBlocker envW 5 stateC6).events =
      [Event.inactiveProposal 1] ∧
    natFilter 1 (endBlocker envW 5 stateC6).hooksInactive = [1] :=
  c6_inactive_drain_drop envW 5 stateC6 1 proposalC6 rfl rfl (by decide)
    rfl rfl rfl rfl

theorem c7_witness :
    ∃ st, (st = ProposalStatus.passed ∨ st = ProposalStatus.rejected ∨
        st = ProposalStatus.failed) ∧
      lookupProposal (endBlocker envW 6 stateC7) 2 =
        some { proposalC7 with status := st
                               finalTallyResult := ⟨0, 0, 0, 0⟩ } ∧
      qFilter 2 (endBlocker envW 6 stateC7).activeQueue = [] ∧
      evFilter 2 (endBlocker envW 6 stateC7).events =
        [Event.activeProposal 2 (tagOf st)] :=
  c7_active_drain_terminal envW 6 stateC7 2 proposalC7 rfl rfl (by decide)
    rfl rfl rfl

theorem c8_witness :
    ∃ m, initGenesis bankEnvC8 genesisC8 emptyGov = Except.error m :=
  c8_genesis_invariant_aborts bankEnvC8 genesisC8 emptyGov
    (Or.inr (fun acc hacc => by
      injection hacc with h2
      subst h2
      decide))

theorem c9_witness :
    ∃ s, initGenesis bankEnvC9 genesisC9 emptyGov = Except.ok s ∧
      ((∀ p ∈ genesisC9.proposals,
        QueuedRight s p.proposalId p.depositEndTime p.votingEndTime
          p.status) ∧
       (∀ p ∈ genesisC9.proposalsV2,
        QueuedRight s p.proposalId p.depositEndTime p.votingEndTime
          p.status)) :=
  ⟨_, rfl, c9_genesis_queue_membership bankEnvC9 genesisC9 _ rfl (by decide)⟩
